import Mathlib

/-!
# png2pac: PNG to Pac-Man ROM conversion

A shallow embedding of `main.go` (the functions `dumpPalette`, `dumpChars`,
`dumpSprites` and `encode_8x4`) together with theorems about the byte layout
they produce.

Conventions of the embedding:

* Go `uint8` values (colour indices, colour channels) are `Fin 256`; bytes that
  the program computes are `Nat` with an explicit `% 256` after every shift,
  which is where a `uint8` shift could wrap.
* Go `int` loop counters and image dimensions are `Nat`: `m.Bounds()` of a
  decoded PNG is the rectangle `(0,0)-(Dx,Dy)` with `Dx, Dy < 2^31`, so no
  counter is negative and `chars_w*chars_h` does not wrap in a 64-bit `int`.
  Pixel coordinates handed to `ColorIndexAt` are `Int`, because `x-col` and
  `y-row` are computed from an arbitrary reference coordinate.
* A `for` loop whose bounds are constants is a `List.foldl` over `List.range`;
  a `for` loop with the extra `n_chars` guard is a recursive function that
  tests the loop condition itself and recurses on a fuel argument, which the
  caller sets to the trip count of the loop.
* The output sink (`io.Writer`, `*os.File`) is a `Writer`: the log of the
  buffers passed to `Write` and the error `Write` answers with.
* A palette entry is a `Color`, a `color.RGBA` or a `color.NRGBA`. The type
  assertion `pal[i].(color.RGBA)` of `dumpPalette` panics on the latter, so
  `dumpPalette` ends in an `Outcome`: it returns or it panics.
* The pixel reads and the visited tiles are logged by functions that have the
  control flow of the loops and append a coordinate where the loops append
  bytes.
-/

namespace Png2pac

/-- Go `uint8`. -/
abbrev uint8 := Fin 256

/-- Go `color.RGBA`. -/
structure RGBA where
  R : uint8
  G : uint8
  B : uint8
  A : uint8
deriving DecidableEq, Repr

/-- Go `color.NRGBA`. -/
structure NRGBA where
  R : uint8
  G : uint8
  B : uint8
  A : uint8
deriving DecidableEq, Repr

/-- The Go `color.Color` values found in the palette of a decoded PNG:
`png.Decode` stores every PLTE entry as a `color.RGBA` and replaces it by a
`color.NRGBA` when the tRNS chunk gives that entry an alpha value. -/
inductive Color where
  | rgba (c : RGBA)
  | nrgba (c : NRGBA)
deriving DecidableEq, Repr

/-- Go `error` values the program can return: `fmt.Errorf(format, arg)` with its
format string and its single integer argument, or an error coming from the
output sink. -/
inductive Error where
  | Errorf (format : String) (arg : Nat)
  | Sink (msg : String)
deriving DecidableEq, Repr

/-- The output sink: `calls` logs every buffer handed to `Write`, oldest first;
`result` is the error `Write` returns for a buffer (`none` is Go `nil`). -/
structure Writer where
  calls : List (List Nat)
  result : List Nat → Option Error

/-- Go `out.Write(buf)`: the sink after the call and the returned error. -/
def Writer.Write (out : Writer) (buf : List Nat) : Writer × Option Error :=
  ({ out with calls := out.calls ++ [buf] }, out.result buf)

/-- How a call that can panic ends: it returns, with the sink as it then is and
the returned error (`none` is Go `nil`), or the Go run time panics, with the
sink as it is at that moment. -/
inductive Outcome where
  | returned (out : Writer) (err : Option Error)
  | panicked (out : Writer)

/-- Go `image.PalettedImage` as `png.Decode` yields it (an `*image.Paletted`):
`Dx` and `Dy` are `m.Bounds().Dx()` and `m.Bounds().Dy()` (the bounds start at
`(0,0)`), `ColorIndexAt` is the pixel accessor, `Palette` is
`m.ColorModel().(color.Palette)`, whose entries are `color.RGBA` or
`color.NRGBA` values. -/
structure PalettedImage where
  Dx : Nat
  Dy : Nat
  ColorIndexAt : Int → Int → uint8
  Palette : List Color

/-- The body of the outer loop of `encode_8x4` (main.go:159-164): the byte `b`
that the inner `row` loop builds for column `col`. -/
def encode_8x4.column (m : PalettedImage) (x : Int) (y : Int) (col : Nat) : Nat :=
  (List.range 4).foldl (fun (b : Nat) (row : Nat) =>
    let pix : Nat := (m.ColorIndexAt (x - (col : Int)) (y - (row : Int))).val
    let b := b ||| ((pix &&& 0x01) <<< row) % 256
    b ||| (((pix &&& 0x02) >>> 1) <<< (4 + row)) % 256) 0

/-- `encode_8x4` (main.go:156-168). -/
def encode_8x4 (m : PalettedImage) (x : Int) (y : Int) : List Nat :=
  (List.range 8).foldl (fun (out : List Nat) (col : Nat) =>
    out ++ [encode_8x4.column m x y col]) []

/-- The expression stored in `buf[i]` by `dumpPalette` (main.go:88) for the
colour `c`: `(c.B & 0xc0) | (c.G&0xe0)>>2 | (c.R&0xe0)>>5`. -/
def dumpPalette.entry (c : RGBA) : Nat :=
  (c.B.val &&& 0xc0) ||| ((c.G.val &&& 0xe0) >>> 2) ||| ((c.R.val &&& 0xe0) >>> 5)

/-- The buffer `dumpPalette` builds (main.go:82-91): `make([]uint8, 32)`, then
the loop over `i < len(pal)`. Each iteration evaluates the type assertion
`pal[i].(color.RGBA)` (main.go:84), which panics when the entry is not a
`color.RGBA`, and otherwise assigns `buf[i]`. The result is `none` when the
loop panicked. `dumpPalette` runs the loop on 32 entries only, so the index of
`buf[i]` is in range. -/
def dumpPalette.buf (pal : List Color) : Option (List Nat) :=
  (List.range pal.length).foldl (fun (st : Option (List Nat)) (i : Nat) =>
    match st with
    | none => none
    | some buf =>
      match pal.getD i (Color.rgba ⟨0, 0, 0, 0⟩) with
      | Color.rgba c => some (buf.set i (dumpPalette.entry c))
      | Color.nrgba _ => none) (some (List.replicate 32 0))

/-- `dumpPalette` (main.go:75-94). -/
def dumpPalette (m : PalettedImage) (out : Writer) : Outcome :=
  let pal := m.Palette
  if pal.length ≠ 32 then
    Outcome.returned out (some (Error.Errorf "Expected 32 colours, got %d" pal.length))
  else
    match dumpPalette.buf pal with
    | none => Outcome.panicked out
    | some buf =>
      let r := out.Write buf
      Outcome.returned r.1 r.2

/-- The inner loop of `dumpChars` (main.go:107-113), from column `cx` on, with
the running `n_chars` and `buf`. -/
def dumpChars.inner (m : PalettedImage) (chars_w cy : Nat) :
    Nat → Nat → Nat → List Nat → Nat × List Nat
  | 0, _, n_chars, buf => (n_chars, buf)
  | fuel + 1, cx, n_chars, buf =>
    if cx < chars_w ∧ n_chars < 256 then
      let n_chars := n_chars + 1
      -- lower 4 rows first
      let buf := buf ++ encode_8x4 m (((cx * 8) + 7 : Nat) : Int) (((cy * 8) + 7 : Nat) : Int)
      -- then upper 4 rows
      let buf := buf ++ encode_8x4 m (((cx * 8) + 7 : Nat) : Int) (((cy * 8) + 3 : Nat) : Int)
      dumpChars.inner m chars_w cy fuel (cx + 1) n_chars buf
    else (n_chars, buf)

/-- The outer loop of `dumpChars` (main.go:106-114), from row `cy` on. -/
def dumpChars.outer (m : PalettedImage) (chars_w chars_h : Nat) :
    Nat → Nat → Nat → List Nat → Nat × List Nat
  | 0, _, n_chars, buf => (n_chars, buf)
  | fuel + 1, cy, n_chars, buf =>
    if cy < chars_h ∧ n_chars < 256 then
      let r := dumpChars.inner m chars_w cy chars_w 0 n_chars buf
      dumpChars.outer m chars_w chars_h fuel (cy + 1) r.1 r.2
    else (n_chars, buf)

/-- The buffer `dumpChars` has built when it reaches `outfile.Write`
(main.go:104-114). -/
def dumpChars.buf (m : PalettedImage) : List Nat :=
  let chars_w := m.Dx / 8
  let chars_h := m.Dy / 8
  (dumpChars.outer m chars_w chars_h chars_h 0 0 []).2

/-- `dumpChars` (main.go:97-117). -/
def dumpChars (outfile : Writer) (m : PalettedImage) : Writer × Option Error :=
  let chars_w := m.Dx / 8
  let chars_h := m.Dy / 8
  if chars_w * chars_h ≠ 256 then
    (outfile, some (Error.Errorf "bad size - expected 256 8x8 characters, got %d"
      (chars_w * chars_h)))
  else
    let buf := dumpChars.buf m
    outfile.Write buf

/-- The inner loop of `dumpSprites` (main.go:131-150), from column `cx` on. -/
def dumpSprites.inner (m : PalettedImage) (chars_w cy : Nat) :
    Nat → Nat → Nat → List Nat → Nat × List Nat
  | 0, _, n_chars, buf => (n_chars, buf)
  | fuel + 1, cx, n_chars, buf =>
    if cx < chars_w ∧ n_chars < 64 then
      let n_chars := n_chars + 1
      let x := cx * 16
      let y := cy * 16
      let buf := buf ++ encode_8x4 m ((x + 15 : Nat) : Int) ((y + 15 : Nat) : Int)
      let buf := buf ++ encode_8x4 m ((x + 15 : Nat) : Int) ((y + 3 : Nat) : Int)
      let buf := buf ++ encode_8x4 m ((x + 15 : Nat) : Int) ((y + 7 : Nat) : Int)
      let buf := buf ++ encode_8x4 m ((x + 15 : Nat) : Int) ((y + 11 : Nat) : Int)
      let buf := buf ++ encode_8x4 m ((x + 7 : Nat) : Int) ((y + 15 : Nat) : Int)
      let buf := buf ++ encode_8x4 m ((x + 7 : Nat) : Int) ((y + 3 : Nat) : Int)
      let buf := buf ++ encode_8x4 m ((x + 7 : Nat) : Int) ((y + 7 : Nat) : Int)
      let buf := buf ++ encode_8x4 m ((x + 7 : Nat) : Int) ((y + 11 : Nat) : Int)
      dumpSprites.inner m chars_w cy fuel (cx + 1) n_chars buf
    else (n_chars, buf)

/-- The outer loop of `dumpSprites` (main.go:130-151), from row `cy` on. -/
def dumpSprites.outer (m : PalettedImage) (chars_w chars_h : Nat) :
    Nat → Nat → Nat → List Nat → Nat × List Nat
  | 0, _, n_chars, buf => (n_chars, buf)
  | fuel + 1, cy, n_chars, buf =>
    if cy < chars_h ∧ n_chars < 64 then
      let r := dumpSprites.inner m chars_w cy chars_w 0 n_chars buf
      dumpSprites.outer m chars_w chars_h fuel (cy + 1) r.1 r.2
    else (n_chars, buf)

/-- The buffer `dumpSprites` has built when it reaches `outfile.Write`
(main.go:127-151). -/
def dumpSprites.buf (m : PalettedImage) : List Nat :=
  let chars_w := m.Dx / 16
  let chars_h := m.Dy / 16
  (dumpSprites.outer m chars_w chars_h chars_h 0 0 []).2

/-- `dumpSprites` (main.go:120-154). -/
def dumpSprites (outfile : Writer) (m : PalettedImage) : Writer × Option Error :=
  let chars_w := m.Dx / 16
  let chars_h := m.Dy / 16
  if chars_w * chars_h ≠ 64 then
    (outfile, some (Error.Errorf "bad size - expected 64 16x16 sprites, got %d"
      (chars_w * chars_h)))
  else
    let buf := dumpSprites.buf m
    outfile.Write buf

/-! ## Names used to state the layout theorems -/

/-- The 16 bytes `dumpChars` appends for the tile at tile-grid position
`(cx, cy)`: lower band, then upper band. -/
def tileBlock (m : PalettedImage) (cx cy : Nat) : List Nat :=
  encode_8x4 m ((cx * 8 + 7 : Nat) : Int) ((cy * 8 + 7 : Nat) : Int) ++
  encode_8x4 m ((cx * 8 + 7 : Nat) : Int) ((cy * 8 + 3 : Nat) : Int)

/-- The 64 bytes `dumpSprites` appends for the sprite whose top-left pixel is
`(x0, y0)`: the eight chunks in the order of main.go:141-149. -/
def spriteBlock (m : PalettedImage) (x0 y0 : Nat) : List Nat :=
  encode_8x4 m ((x0 + 15 : Nat) : Int) ((y0 + 15 : Nat) : Int) ++
  encode_8x4 m ((x0 + 15 : Nat) : Int) ((y0 + 3 : Nat) : Int) ++
  encode_8x4 m ((x0 + 15 : Nat) : Int) ((y0 + 7 : Nat) : Int) ++
  encode_8x4 m ((x0 + 15 : Nat) : Int) ((y0 + 11 : Nat) : Int) ++
  encode_8x4 m ((x0 + 7 : Nat) : Int) ((y0 + 15 : Nat) : Int) ++
  encode_8x4 m ((x0 + 7 : Nat) : Int) ((y0 + 3 : Nat) : Int) ++
  encode_8x4 m ((x0 + 7 : Nat) : Int) ((y0 + 7 : Nat) : Int) ++
  encode_8x4 m ((x0 + 7 : Nat) : Int) ((y0 + 11 : Nat) : Int)

/-! ## The pixel reads

The same control flow as above with, in place of the bytes, the log of the
coordinates handed to `m.ColorIndexAt`, in call order. -/

/-- The coordinates at which one call `encode_8x4(m, x, y)` calls
`m.ColorIndexAt` (main.go:158-161), in call order. -/
def encode_8x4.reads (x : Int) (y : Int) : List (Int × Int) :=
  (List.range 8).foldl (fun (log : List (Int × Int)) (col : Nat) =>
    (List.range 4).foldl (fun (log : List (Int × Int)) (row : Nat) =>
      log ++ [(x - (col : Int), y - (row : Int))]) log) []

/-- The inner loop of `dumpChars`, logging the pixel reads of its two
`encode_8x4` calls. -/
def dumpChars.readsInner (chars_w cy : Nat) :
    Nat → Nat → Nat → List (Int × Int) → Nat × List (Int × Int)
  | 0, _, n_chars, log => (n_chars, log)
  | fuel + 1, cx, n_chars, log =>
    if cx < chars_w ∧ n_chars < 256 then
      let n_chars := n_chars + 1
      let log := log ++ encode_8x4.reads (((cx * 8) + 7 : Nat) : Int) (((cy * 8) + 7 : Nat) : Int)
      let log := log ++ encode_8x4.reads (((cx * 8) + 7 : Nat) : Int) (((cy * 8) + 3 : Nat) : Int)
      dumpChars.readsInner chars_w cy fuel (cx + 1) n_chars log
    else (n_chars, log)

/-- The outer loop of `dumpChars`, logging the pixel reads. -/
def dumpChars.readsOuter (chars_w chars_h : Nat) :
    Nat → Nat → Nat → List (Int × Int) → Nat × List (Int × Int)
  | 0, _, n_chars, log => (n_chars, log)
  | fuel + 1, cy, n_chars, log =>
    if cy < chars_h ∧ n_chars < 256 then
      let r := dumpChars.readsInner chars_w cy chars_w 0 n_chars log
      dumpChars.readsOuter chars_w chars_h fuel (cy + 1) r.1 r.2
    else (n_chars, log)

/-- Every pixel read of a run of `dumpChars` that passed the size check. -/
def dumpChars.reads (m : PalettedImage) : List (Int × Int) :=
  let chars_w := m.Dx / 8
  let chars_h := m.Dy / 8
  (dumpChars.readsOuter chars_w chars_h chars_h 0 0 []).2

/-- The inner loop of `dumpSprites`, logging the pixel reads of its eight
`encode_8x4` calls. -/
def dumpSprites.readsInner (chars_w cy : Nat) :
    Nat → Nat → Nat → List (Int × Int) → Nat × List (Int × Int)
  | 0, _, n_chars, log => (n_chars, log)
  | fuel + 1, cx, n_chars, log =>
    if cx < chars_w ∧ n_chars < 64 then
      let n_chars := n_chars + 1
      let x := cx * 16
      let y := cy * 16
      let log := log ++ encode_8x4.reads ((x + 15 : Nat) : Int) ((y + 15 : Nat) : Int)
      let log := log ++ encode_8x4.reads ((x + 15 : Nat) : Int) ((y + 3 : Nat) : Int)
      let log := log ++ encode_8x4.reads ((x + 15 : Nat) : Int) ((y + 7 : Nat) : Int)
      let log := log ++ encode_8x4.reads ((x + 15 : Nat) : Int) ((y + 11 : Nat) : Int)
      let log := log ++ encode_8x4.reads ((x + 7 : Nat) : Int) ((y + 15 : Nat) : Int)
      let log := log ++ encode_8x4.reads ((x + 7 : Nat) : Int) ((y + 3 : Nat) : Int)
      let log := log ++ encode_8x4.reads ((x + 7 : Nat) : Int) ((y + 7 : Nat) : Int)
      let log := log ++ encode_8x4.reads ((x + 7 : Nat) : Int) ((y + 11 : Nat) : Int)
      dumpSprites.readsInner chars_w cy fuel (cx + 1) n_chars log
    else (n_chars, log)

/-- The outer loop of `dumpSprites`, logging the pixel reads. -/
def dumpSprites.readsOuter (chars_w chars_h : Nat) :
    Nat → Nat → Nat → List (Int × Int) → Nat × List (Int × Int)
  | 0, _, n_chars, log => (n_chars, log)
  | fuel + 1, cy, n_chars, log =>
    if cy < chars_h ∧ n_chars < 64 then
      let r := dumpSprites.readsInner chars_w cy chars_w 0 n_chars log
      dumpSprites.readsOuter chars_w chars_h fuel (cy + 1) r.1 r.2
    else (n_chars, log)

/-- Every pixel read of a run of `dumpSprites` that passed the size check. -/
def dumpSprites.reads (m : PalettedImage) : List (Int × Int) :=
  let chars_w := m.Dx / 16
  let chars_h := m.Dy / 16
  (dumpSprites.readsOuter chars_w chars_h chars_h 0 0 []).2

/-- The reads of the two `encode_8x4` calls for the tile at `(cx, cy)`. -/
def tileReads (cx cy : Nat) : List (Int × Int) :=
  encode_8x4.reads ((cx * 8 + 7 : Nat) : Int) ((cy * 8 + 7 : Nat) : Int) ++
  encode_8x4.reads ((cx * 8 + 7 : Nat) : Int) ((cy * 8 + 3 : Nat) : Int)

/-- The reads of the eight `encode_8x4` calls for the sprite at `(x0, y0)`. -/
def spriteReads (x0 y0 : Nat) : List (Int × Int) :=
  encode_8x4.reads ((x0 + 15 : Nat) : Int) ((y0 + 15 : Nat) : Int) ++
  encode_8x4.reads ((x0 + 15 : Nat) : Int) ((y0 + 3 : Nat) : Int) ++
  encode_8x4.reads ((x0 + 15 : Nat) : Int) ((y0 + 7 : Nat) : Int) ++
  encode_8x4.reads ((x0 + 15 : Nat) : Int) ((y0 + 11 : Nat) : Int) ++
  encode_8x4.reads ((x0 + 7 : Nat) : Int) ((y0 + 15 : Nat) : Int) ++
  encode_8x4.reads ((x0 + 7 : Nat) : Int) ((y0 + 3 : Nat) : Int) ++
  encode_8x4.reads ((x0 + 7 : Nat) : Int) ((y0 + 7 : Nat) : Int) ++
  encode_8x4.reads ((x0 + 7 : Nat) : Int) ((y0 + 11 : Nat) : Int)

/-! ## Concrete inputs -/

/-- An image of the given size whose pixels all have colour index 0. -/
def blankImage (dx dy : Nat) : PalettedImage :=
  { Dx := dx, Dy := dy, ColorIndexAt := fun _ _ => 0, Palette := [] }

/-- An image of the given size whose pixels all have colour index 0, except
the pixel `(px, py)`, which has index `v`. -/
def onePixelImage (dx dy : Nat) (px py : Nat) (v : uint8) : PalettedImage :=
  { Dx := dx, Dy := dy,
    ColorIndexAt := fun x y => if x = (px : Int) ∧ y = (py : Int) then v else 0,
    Palette := [] }

/-- An image that carries a palette of `n` copies of one opaque colour, each
stored as a `color.RGBA`. -/
def paletteImage (n : Nat) : PalettedImage :=
  { Dx := 0, Dy := 0, ColorIndexAt := fun _ _ => 0,
    Palette := (List.replicate n { R := 255, G := 128, B := 64, A := 255 }).map Color.rgba }

/-- The palette `png.Decode` yields for a PNG with 32 PLTE entries and a tRNS
chunk of one byte: entry 0 is a `color.NRGBA`, entries 1 to 31 are
`color.RGBA`. -/
def transparentPaletteImage : PalettedImage :=
  { Dx := 0, Dy := 0, ColorIndexAt := fun _ _ => 0,
    Palette := Color.nrgba { R := 255, G := 128, B := 64, A := 0 } ::
      (List.replicate 31 { R := 255, G := 128, B := 64, A := 255 }).map Color.rgba }

/-- The palette `png.Decode` yields for a PNG with 32 PLTE entries and a tRNS
chunk of 32 bytes: every entry is a `color.NRGBA`. -/
def translucentPaletteImage : PalettedImage :=
  { Dx := 0, Dy := 0, ColorIndexAt := fun _ _ => 0,
    Palette := List.replicate 32 (Color.nrgba { R := 255, G := 128, B := 64, A := 128 }) }

/-- A sink that has received nothing and accepts every write. -/
def nullSink : Writer :=
  { calls := [], result := fun _ => none }

/-- A sink that has received nothing and rejects every write. -/
def fullSink : Writer :=
  { calls := [], result := fun _ => some (Error.Sink "no space left on device") }

/-- An image of the given size whose pixels all have colour index `v`. -/
def filledImage (dx dy : Nat) (v : uint8) : PalettedImage :=
  { Dx := dx, Dy := dy, ColorIndexAt := fun _ _ => v, Palette := [] }

/-- The colour re-derived from an encoded palette byte `b` by masking:
Red `(b & 0x07) << 5`, Green `(b & 0x38) << 2`, Blue `b & 0xC0`, opaque. -/
def rederiveColour (b : Nat) : RGBA :=
  { R := ⟨((b &&& 0x07) <<< 5) % 256, Nat.mod_lt _ (by decide)⟩,
    G := ⟨((b &&& 0x38) <<< 2) % 256, Nat.mod_lt _ (by decide)⟩,
    B := ⟨(b &&& 0xC0) % 256, Nat.mod_lt _ (by decide)⟩,
    A := 255 }

/-- The `len` bytes of `buf` that start at offset `start`. -/
def byteSlice (buf : List Nat) (start len : Nat) : List Nat :=
  (buf.drop start).take len

/-- A 128 by 128 image in which every 16 by 16 sprite has its top-left,
top-right, bottom-left and bottom-right 8 by 8 quadrant filled with the index
`tl`, `tr`, `bl`, `br`. -/
def quadrantImage (tl tr bl br : uint8) : PalettedImage :=
  { Dx := 128, Dy := 128,
    ColorIndexAt := fun x y =>
      if x % 16 < 8 then (if y % 16 < 8 then tl else bl)
      else (if y % 16 < 8 then tr else br),
    Palette := [] }

/-! ## The traversal, with and without the cap -/

/-- The control flow of the inner loop of `dumpChars` (`cap = 256`,
main.go:107-108) and of `dumpSprites` (`cap = 64`, main.go:131-132), logging
the `(cx, cy)` of every iteration in place of the bytes. -/
def visitsInner (cap chars_w cy : Nat) :
    Nat → Nat → Nat → List (Nat × Nat) → Nat × List (Nat × Nat)
  | 0, _, n_chars, log => (n_chars, log)
  | fuel + 1, cx, n_chars, log =>
    if cx < chars_w ∧ n_chars < cap then
      let n_chars := n_chars + 1
      let log := log ++ [(cx, cy)]
      visitsInner cap chars_w cy fuel (cx + 1) n_chars log
    else (n_chars, log)

/-- The control flow of the outer loop of `dumpChars` (`cap = 256`,
main.go:106) and of `dumpSprites` (`cap = 64`, main.go:130), logging the
`(cx, cy)` of every iteration of the inner loop. -/
def visitsOuter (cap chars_w chars_h : Nat) :
    Nat → Nat → Nat → List (Nat × Nat) → Nat × List (Nat × Nat)
  | 0, _, n_chars, log => (n_chars, log)
  | fuel + 1, cy, n_chars, log =>
    if cy < chars_h ∧ n_chars < cap then
      let r := visitsInner cap chars_w cy chars_w 0 n_chars log
      visitsOuter cap chars_w chars_h fuel (cy + 1) r.1 r.2
    else (n_chars, log)

/-- The tiles `(cx, cy)` that `dumpChars` visits, in order. -/
def dumpChars.visits (m : PalettedImage) : List (Nat × Nat) :=
  let chars_w := m.Dx / 8
  let chars_h := m.Dy / 8
  (visitsOuter 256 chars_w chars_h chars_h 0 0 []).2

/-- The sprites `(cx, cy)` that `dumpSprites` visits, in order. -/
def dumpSprites.visits (m : PalettedImage) : List (Nat × Nat) :=
  let chars_w := m.Dx / 16
  let chars_h := m.Dy / 16
  (visitsOuter 64 chars_w chars_h chars_h 0 0 []).2

/-- The visits of the same two loops without the `n_chars` guard:
`for cy := 0; cy < chars_h; cy++ { for cx := 0; cx < chars_w; cx++ { ... } }`. -/
def visitsNoCap (chars_w chars_h : Nat) : List (Nat × Nat) :=
  (List.range chars_h).foldl (fun (log : List (Nat × Nat)) (cy : Nat) =>
    (List.range chars_w).foldl (fun (log : List (Nat × Nat)) (cx : Nat) =>
      log ++ [(cx, cy)]) log) []

/-- The buffer of `dumpChars` when the guard `n_chars < 256` is removed from
both loop conditions. -/
def dumpChars.bufNoCap (m : PalettedImage) : List Nat :=
  let chars_w := m.Dx / 8
  let chars_h := m.Dy / 8
  (List.range chars_h).foldl (fun (buf : List Nat) (cy : Nat) =>
    (List.range chars_w).foldl (fun (buf : List Nat) (cx : Nat) =>
      let buf := buf ++ encode_8x4 m (((cx * 8) + 7 : Nat) : Int) (((cy * 8) + 7 : Nat) : Int)
      buf ++ encode_8x4 m (((cx * 8) + 7 : Nat) : Int) (((cy * 8) + 3 : Nat) : Int)) buf) []

/-- The buffer of `dumpSprites` when the guard `n_chars < 64` is removed from
both loop conditions. -/
def dumpSprites.bufNoCap (m : PalettedImage) : List Nat :=
  let chars_w := m.Dx / 16
  let chars_h := m.Dy / 16
  (List.range chars_h).foldl (fun (buf : List Nat) (cy : Nat) =>
    (List.range chars_w).foldl (fun (buf : List Nat) (cx : Nat) =>
      let x := cx * 16
      let y := cy * 16
      let buf := buf ++ encode_8x4 m ((x + 15 : Nat) : Int) ((y + 15 : Nat) : Int)
      let buf := buf ++ encode_8x4 m ((x + 15 : Nat) : Int) ((y + 3 : Nat) : Int)
      let buf := buf ++ encode_8x4 m ((x + 15 : Nat) : Int) ((y + 7 : Nat) : Int)
      let buf := buf ++ encode_8x4 m ((x + 15 : Nat) : Int) ((y + 11 : Nat) : Int)
      let buf := buf ++ encode_8x4 m ((x + 7 : Nat) : Int) ((y + 15 : Nat) : Int)
      let buf := buf ++ encode_8x4 m ((x + 7 : Nat) : Int) ((y + 3 : Nat) : Int)
      let buf := buf ++ encode_8x4 m ((x + 7 : Nat) : Int) ((y + 7 : Nat) : Int)
      buf ++ encode_8x4 m ((x + 7 : Nat) : Int) ((y + 11 : Nat) : Int)) buf) []

/-- A decoder for the tile-mode output: `index & 3` of the pixel `(x, y)`, read
off the byte of `buf` that holds it (`chars_w` is `width / 8`). -/
def decodePixel (buf : List Nat) (chars_w : Nat) (x y : Nat) : Nat :=
  let b := buf.getD
    (16 * ((y / 8) * chars_w + x / 8) + (if 4 ≤ y % 8 then 0 else 8) + (7 - x % 8)) 0
  let row := 3 - y % 4
  (if b.testBit row then 1 else 0) + (if b.testBit (4 + row) then 2 else 0)

/-! ## Chunks of sprite mode and of tile mode -/

/-- The x offset, from the sprite origin, of the reference point of the `c`-th
`encode_8x4` call of `dumpSprites` (main.go:141-149), `c = 0 .. 7`. -/
def spriteChunkDx (c : Nat) : Nat :=
  if c < 4 then 15 else 7

/-- The y offset, from the sprite origin, of the reference point of the `c`-th
`encode_8x4` call of `dumpSprites` (main.go:141-149), `c = 0 .. 7`. -/
def spriteChunkDy (c : Nat) : Nat :=
  if c % 4 = 0 then 15 else if c % 4 = 1 then 3 else if c % 4 = 2 then 7 else 11

/-- The number of the tile-mode chunk that holds the bytes of sprite-mode chunk
`n`, for a grid `16 * a` pixels wide: sprite `(sx, sy)` and offsets `(dx, dy)`
go to tile `(2*sx + (1 if dx = 15), 2*sy + (1 if dy >= 8))`, lower band (first
chunk of the tile) if `dy` is 7 or 15 and upper band otherwise. -/
def tileChunkOf (a n : Nat) : Nat :=
  let sx := (n / 8) % a
  let sy := (n / 8) / a
  let dx := spriteChunkDx (n % 8)
  let dy := spriteChunkDy (n % 8)
  let cx := 2 * sx + (if dx = 15 then 1 else 0)
  let cy := 2 * sy + (if 8 ≤ dy then 1 else 0)
  2 * (cy * (2 * a) + cx) + (if dy = 7 ∨ dy = 15 then 0 else 1)

/-! ## Bit-level lemmas -/

theorem testBit_plane0 (p r j : Nat) (hr : r < 8) :
    (((p &&& 0x01) <<< r) % 256).testBit j = (decide (j = r) && p.testBit 0) := by
  have h256 : (256 : Nat) = 2 ^ 8 := by norm_num
  rw [h256, Nat.testBit_mod_two_pow, Nat.testBit_shiftLeft, Nat.testBit_and]
  by_cases hj : j = r
  · subst hj; simp [hr]
  · have : (1 : Nat).testBit (j - r) = false ∨ ¬ (j ≥ r) := by
      by_cases h : j ≥ r
      · left
        have : j - r ≠ 0 := by omega
        obtain ⟨k, hk⟩ := Nat.exists_eq_succ_of_ne_zero this
        rw [hk, Nat.testBit_succ]; simp
      · right; exact h
    rcases this with h | h
    · simp [h, hj]
    · simp [h, hj]

theorem testBit_plane1 (p r j : Nat) (hr : r < 4) :
    ((((p &&& 0x02) >>> 1) <<< (4 + r)) % 256).testBit j
      = (decide (j = 4 + r) && p.testBit 1) := by
  have h256 : (256 : Nat) = 2 ^ 8 := by norm_num
  rw [h256, Nat.testBit_mod_two_pow, Nat.testBit_shiftLeft, Nat.testBit_shiftRight,
    Nat.testBit_and]
  by_cases hj : j = 4 + r
  · subst hj
    have h8 : 4 + r < 8 := by omega
    have h2 : Nat.testBit 2 1 = true := by decide
    simp [h8, h2]
  · have : (2 : Nat).testBit (1 + (j - (4 + r))) = false ∨ ¬ (j ≥ 4 + r) := by
      by_cases h : j ≥ 4 + r
      · left
        have : j - (4 + r) ≠ 0 := by omega
        obtain ⟨k, hk⟩ := Nat.exists_eq_succ_of_ne_zero this
        rw [hk, show 1 + k.succ = (k + 1) + 1 by omega, Nat.testBit_succ, Nat.testBit_succ]
        simp
      · right; exact h
    rcases this with h | h
    · simp [h, hj]
    · simp [h, hj]

/-- Every bit of a column byte, in terms of the four pixels of the column. -/
theorem column_testBit (m : PalettedImage) (x y : Int) (col j : Nat) :
    (encode_8x4.column m x y col).testBit j =
      ((decide (j = 0) && (m.ColorIndexAt (x - col) (y - 0)).val.testBit 0) ||
       (decide (j = 4) && (m.ColorIndexAt (x - col) (y - 0)).val.testBit 1) ||
       (decide (j = 1) && (m.ColorIndexAt (x - col) (y - 1)).val.testBit 0) ||
       (decide (j = 5) && (m.ColorIndexAt (x - col) (y - 1)).val.testBit 1) ||
       (decide (j = 2) && (m.ColorIndexAt (x - col) (y - 2)).val.testBit 0) ||
       (decide (j = 6) && (m.ColorIndexAt (x - col) (y - 2)).val.testBit 1) ||
       (decide (j = 3) && (m.ColorIndexAt (x - col) (y - 3)).val.testBit 0) ||
       (decide (j = 7) && (m.ColorIndexAt (x - col) (y - 3)).val.testBit 1)) := by
  have e0 := testBit_plane0 (m.ColorIndexAt (x - col) (y - 0)).val 0 j (by norm_num)
  have e1 := testBit_plane0 (m.ColorIndexAt (x - col) (y - 1)).val 1 j (by norm_num)
  have e2 := testBit_plane0 (m.ColorIndexAt (x - col) (y - 2)).val 2 j (by norm_num)
  have e3 := testBit_plane0 (m.ColorIndexAt (x - col) (y - 3)).val 3 j (by norm_num)
  have f0 := testBit_plane1 (m.ColorIndexAt (x - col) (y - 0)).val 0 j (by norm_num)
  have f1 := testBit_plane1 (m.ColorIndexAt (x - col) (y - 1)).val 1 j (by norm_num)
  have f2 := testBit_plane1 (m.ColorIndexAt (x - col) (y - 2)).val 2 j (by norm_num)
  have f3 := testBit_plane1 (m.ColorIndexAt (x - col) (y - 3)).val 3 j (by norm_num)
  simp only [encode_8x4.column, List.range, List.range.loop, List.foldl, Nat.testBit_or,
    Nat.cast_ofNat, Nat.cast_zero, Nat.cast_one, Nat.zero_testBit, Bool.false_or]
  rw [e0, e1, e2, e3, f0, f1, f2, f3]

theorem encode_8x4_eq_map (m : PalettedImage) (x y : Int) :
    encode_8x4 m x y = (List.range 8).map (encode_8x4.column m x y) := by
  simp [encode_8x4, List.range, List.range.loop]

theorem column_lt (m : PalettedImage) (x y : Int) (col : Nat) :
    encode_8x4.column m x y col < 256 := by
  have h256 : (256 : Nat) = 2 ^ 8 := by norm_num
  rw [h256]
  apply Nat.lt_pow_two_of_testBit
  intro j hj
  rw [column_testBit]
  have h0 : j ≠ 0 := by omega
  have h1 : j ≠ 1 := by omega
  have h2 : j ≠ 2 := by omega
  have h3 : j ≠ 3 := by omega
  have h4 : j ≠ 4 := by omega
  have h5 : j ≠ 5 := by omega
  have h6 : j ≠ 6 := by omega
  have h7 : j ≠ 7 := by omega
  simp [h0, h1, h2, h3, h4, h5, h6, h7]

theorem encode_8x4_getD (m : PalettedImage) (x y : Int) (col : Nat) (h : col < 8) :
    (encode_8x4 m x y).getD col 0 = encode_8x4.column m x y col := by
  rw [encode_8x4_eq_map]
  interval_cases col <;> rfl


theorem encode_8x4_length (m : PalettedImage) (x y : Int) :
    (encode_8x4 m x y).length = 8 := by
  simp [encode_8x4_eq_map]

/-! ## The fuel of the loops

Each loop is started with its trip count as fuel. More fuel changes nothing:
the loop condition `cx < chars_w` (or `cy < chars_h`) is false by the time the
fuel is used up. -/

theorem dumpChars_inner_fuel (m : PalettedImage) (chars_w cy : Nat) :
    ∀ (fuel cx n : Nat) (buf : List Nat), chars_w ≤ cx + fuel →
      dumpChars.inner m chars_w cy (fuel + 1) cx n buf =
        dumpChars.inner m chars_w cy fuel cx n buf := by
  intro fuel
  induction fuel with
  | zero =>
    intro cx n buf h
    have hc : ¬ (cx < chars_w ∧ n < 256) := by omega
    simp [dumpChars.inner, hc]
  | succ k ih =>
    intro cx n buf h
    rw [dumpChars.inner]
    by_cases hc : cx < chars_w ∧ n < 256
    · rw [if_pos hc]
      simp only []
      rw [ih (cx + 1) _ _ (by omega)]
      conv_rhs => rw [dumpChars.inner, if_pos hc]
    · rw [if_neg hc]
      conv_rhs => rw [dumpChars.inner, if_neg hc]

theorem dumpChars_outer_fuel (m : PalettedImage) (chars_w chars_h : Nat) :
    ∀ (fuel cy n : Nat) (buf : List Nat), chars_h ≤ cy + fuel →
      dumpChars.outer m chars_w chars_h (fuel + 1) cy n buf =
        dumpChars.outer m chars_w chars_h fuel cy n buf := by
  intro fuel
  induction fuel with
  | zero =>
    intro cy n buf h
    have hc : ¬ (cy < chars_h ∧ n < 256) := by omega
    simp [dumpChars.outer, hc]
  | succ k ih =>
    intro cy n buf h
    rw [dumpChars.outer]
    by_cases hc : cy < chars_h ∧ n < 256
    · rw [if_pos hc]
      simp only []
      rw [ih (cy + 1) _ _ (by omega)]
      conv_rhs => rw [dumpChars.outer, if_pos hc]
    · rw [if_neg hc]
      conv_rhs => rw [dumpChars.outer, if_neg hc]

theorem dumpSprites_inner_fuel (m : PalettedImage) (chars_w cy : Nat) :
    ∀ (fuel cx n : Nat) (buf : List Nat), chars_w ≤ cx + fuel →
      dumpSprites.inner m chars_w cy (fuel + 1) cx n buf =
        dumpSprites.inner m chars_w cy fuel cx n buf := by
  intro fuel
  induction fuel with
  | zero =>
    intro cx n buf h
    have hc : ¬ (cx < chars_w ∧ n < 64) := by omega
    simp [dumpSprites.inner, hc]
  | succ k ih =>
    intro cx n buf h
    rw [dumpSprites.inner]
    by_cases hc : cx < chars_w ∧ n < 64
    · rw [if_pos hc]
      simp only []
      rw [ih (cx + 1) _ _ (by omega)]
      conv_rhs => rw [dumpSprites.inner, if_pos hc]
    · rw [if_neg hc]
      conv_rhs => rw [dumpSprites.inner, if_neg hc]

theorem dumpSprites_outer_fuel (m : PalettedImage) (chars_w chars_h : Nat) :
    ∀ (fuel cy n : Nat) (buf : List Nat), chars_h ≤ cy + fuel →
      dumpSprites.outer m chars_w chars_h (fuel + 1) cy n buf =
        dumpSprites.outer m chars_w chars_h fuel cy n buf := by
  intro fuel
  induction fuel with
  | zero =>
    intro cy n buf h
    have hc : ¬ (cy < chars_h ∧ n < 64) := by omega
    simp [dumpSprites.outer, hc]
  | succ k ih =>
    intro cy n buf h
    rw [dumpSprites.outer]
    by_cases hc : cy < chars_h ∧ n < 64
    · rw [if_pos hc]
      simp only []
      rw [ih (cy + 1) _ _ (by omega)]
      conv_rhs => rw [dumpSprites.outer, if_pos hc]
    · rw [if_neg hc]
      conv_rhs => rw [dumpSprites.outer, if_neg hc]

/-! ## The loops -/

theorem inner_chars (m : PalettedImage) (chars_w cy : Nat) :
    ∀ (fuel cx n : Nat) (buf : List Nat), cx + fuel = chars_w → n + fuel ≤ 256 →
      dumpChars.inner m chars_w cy fuel cx n buf =
        (n + fuel, buf ++ (List.range' cx fuel).flatMap (fun c => tileBlock m c cy)) := by
  intro fuel
  induction fuel with
  | zero => intro cx n buf _ _; simp [dumpChars.inner]
  | succ k ih =>
    intro cx n buf h1 h2
    have hc : cx < chars_w ∧ n < 256 := by omega
    rw [dumpChars.inner, if_pos hc]
    simp only []
    rw [ih (cx + 1) (n + 1) _ (by omega) (by omega), List.range'_succ, List.flatMap_cons]
    simp [tileBlock, List.append_assoc]
    omega

theorem outer_chars (m : PalettedImage) (chars_w chars_h : Nat) (hw : 0 < chars_w) :
    ∀ (fuel cy n : Nat) (buf : List Nat), cy + fuel = chars_h → n + fuel * chars_w ≤ 256 →
      dumpChars.outer m chars_w chars_h fuel cy n buf =
        (n + fuel * chars_w,
          buf ++ (List.range' cy fuel).flatMap (fun r =>
            (List.range' 0 chars_w).flatMap (fun c => tileBlock m c r))) := by
  intro fuel
  induction fuel with
  | zero => intro cy n buf _ _; simp [dumpChars.outer]
  | succ k ih =>
    intro cy n buf h1 h2
    have hmul : (k + 1) * chars_w = k * chars_w + chars_w := Nat.succ_mul k chars_w
    have hc : cy < chars_h ∧ n < 256 := by omega
    rw [dumpChars.outer, if_pos hc]
    simp only []
    rw [inner_chars m chars_w cy chars_w 0 n buf (by omega) (by omega)]
    simp only []
    rw [ih (cy + 1) (n + chars_w) _ (by omega) (by omega), List.range'_succ, List.flatMap_cons]
    simp [List.append_assoc]
    omega

theorem inner_sprites (m : PalettedImage) (chars_w cy : Nat) :
    ∀ (fuel cx n : Nat) (buf : List Nat), cx + fuel = chars_w → n + fuel ≤ 64 →
      dumpSprites.inner m chars_w cy fuel cx n buf =
        (n + fuel,
          buf ++ (List.range' cx fuel).flatMap (fun c => spriteBlock m (c * 16) (cy * 16))) := by
  intro fuel
  induction fuel with
  | zero => intro cx n buf _ _; simp [dumpSprites.inner]
  | succ k ih =>
    intro cx n buf h1 h2
    have hc : cx < chars_w ∧ n < 64 := by omega
    rw [dumpSprites.inner, if_pos hc]
    simp only []
    rw [ih (cx + 1) (n + 1) _ (by omega) (by omega), List.range'_succ, List.flatMap_cons]
    simp [spriteBlock, List.append_assoc]
    omega

theorem outer_sprites (m : PalettedImage) (chars_w chars_h : Nat) (hw : 0 < chars_w) :
    ∀ (fuel cy n : Nat) (buf : List Nat), cy + fuel = chars_h → n + fuel * chars_w ≤ 64 →
      dumpSprites.outer m chars_w chars_h fuel cy n buf =
        (n + fuel * chars_w,
          buf ++ (List.range' cy fuel).flatMap (fun r =>
            (List.range' 0 chars_w).flatMap (fun c => spriteBlock m (c * 16) (r * 16)))) := by
  intro fuel
  induction fuel with
  | zero => intro cy n buf _ _; simp [dumpSprites.outer]
  | succ k ih =>
    intro cy n buf h1 h2
    have hmul : (k + 1) * chars_w = k * chars_w + chars_w := Nat.succ_mul k chars_w
    have hc : cy < chars_h ∧ n < 64 := by omega
    rw [dumpSprites.outer, if_pos hc]
    simp only []
    rw [inner_sprites m chars_w cy chars_w 0 n buf (by omega) (by omega)]
    simp only []
    rw [ih (cy + 1) (n + chars_w) _ (by omega) (by omega), List.range'_succ, List.flatMap_cons]
    simp [List.append_assoc]
    omega

/-- Row-major traversal of an `h` by `w` grid is the traversal of the indices
`k < h * w` with column `k % w` and row `k / w`. -/
theorem flatMap_raster {β : Type} (f : Nat → Nat → List β) (w : Nat) (hw : 0 < w) (h : Nat) :
    (List.range' 0 h).flatMap (fun r => (List.range' 0 w).flatMap (fun c => f c r)) =
      (List.range (h * w)).flatMap (fun k => f (k % w) (k / w)) := by
  induction h with
  | zero => simp
  | succ n ih =>
    have hs : (n + 1) * w = n * w + w := Nat.succ_mul n w
    rw [List.range'_concat, List.flatMap_append, ih, hs, List.range_add,
      List.flatMap_append, List.flatMap_map, List.flatMap_singleton, ← List.range_eq_range']
    congr 1
    simp only [Nat.zero_add, Nat.one_mul]
    apply List.flatMap_congr
    intro c hc
    have hc' : c < w := List.mem_range.mp hc
    have e1 : (n * w + c) % w = c := by
      rw [Nat.mul_comm, Nat.mul_add_mod]; exact Nat.mod_eq_of_lt hc'
    have e2 : (n * w + c) / w = n := by
      rw [Nat.mul_comm, Nat.mul_add_div hw, Nat.div_eq_of_lt hc', Nat.add_zero]
    simp [e1, e2]

theorem pos_of_mul_eq {a b c : Nat} (h : a * b = c) (hc : 0 < c) : 0 < a ∧ 0 < b := by
  constructor
  · rcases Nat.eq_zero_or_pos a with h0 | h0
    · rw [h0, Nat.zero_mul] at h; omega
    · exact h0
  · rcases Nat.eq_zero_or_pos b with h0 | h0
    · rw [h0, Nat.mul_zero] at h; omega
    · exact h0

/-- The buffer of tile mode, once the size check has passed. -/
theorem dumpChars_buf_eq (m : PalettedImage) (h : (m.Dx / 8) * (m.Dy / 8) = 256) :
    dumpChars.buf m =
      (List.range 256).flatMap (fun k => tileBlock m (k % (m.Dx / 8)) (k / (m.Dx / 8))) := by
  have hpos := pos_of_mul_eq h (by norm_num)
  have h2 : 0 + (m.Dy / 8) * (m.Dx / 8) ≤ 256 := by rw [Nat.mul_comm]; omega
  unfold dumpChars.buf
  simp only []
  rw [outer_chars m (m.Dx / 8) (m.Dy / 8) hpos.1 (m.Dy / 8) 0 0 [] (by omega) h2]
  simp only [List.nil_append]
  rw [flatMap_raster (fun c r => tileBlock m c r) (m.Dx / 8) hpos.1 (m.Dy / 8),
    Nat.mul_comm, h]

/-- The buffer of sprite mode, once the size check has passed. -/
theorem dumpSprites_buf_eq (m : PalettedImage) (h : (m.Dx / 16) * (m.Dy / 16) = 64) :
    dumpSprites.buf m =
      (List.range 64).flatMap (fun s =>
        spriteBlock m (16 * (s % (m.Dx / 16))) (16 * (s / (m.Dx / 16)))) := by
  have hpos := pos_of_mul_eq h (by norm_num)
  have h2 : 0 + (m.Dy / 16) * (m.Dx / 16) ≤ 64 := by rw [Nat.mul_comm]; omega
  unfold dumpSprites.buf
  simp only []
  rw [outer_sprites m (m.Dx / 16) (m.Dy / 16) hpos.1 (m.Dy / 16) 0 0 [] (by omega) h2]
  simp only [List.nil_append]
  rw [flatMap_raster (fun c r => spriteBlock m (c * 16) (r * 16)) (m.Dx / 16) hpos.1
    (m.Dy / 16), Nat.mul_comm, h]
  apply List.flatMap_congr
  intro s _
  rw [Nat.mul_comm (s % (m.Dx / 16)) 16, Nat.mul_comm (s / (m.Dx / 16)) 16]

theorem tileBlock_length (m : PalettedImage) (cx cy : Nat) : (tileBlock m cx cy).length = 16 := by
  simp [tileBlock, encode_8x4_length]

theorem spriteBlock_length (m : PalettedImage) (x0 y0 : Nat) :
    (spriteBlock m x0 y0).length = 64 := by
  simp [spriteBlock, encode_8x4_length]

theorem length_flatMap_const {α β : Type} (f : α → List β) (n : Nat)
    (hf : ∀ a, (f a).length = n) (l : List α) : (l.flatMap f).length = l.length * n := by
  induction l with
  | nil => simp
  | cons a t ih => rw [List.flatMap_cons, List.length_append, hf, ih, List.length_cons]; ring

theorem dumpChars_buf_length (m : PalettedImage) (h : (m.Dx / 8) * (m.Dy / 8) = 256) :
    (dumpChars.buf m).length = 4096 := by
  rw [dumpChars_buf_eq m h, length_flatMap_const _ 16 (fun k => tileBlock_length m _ _)]
  simp

theorem dumpSprites_buf_length (m : PalettedImage) (h : (m.Dx / 16) * (m.Dy / 16) = 64) :
    (dumpSprites.buf m).length = 4096 := by
  rw [dumpSprites_buf_eq m h, length_flatMap_const _ 64 (fun k => spriteBlock_length m _ _)]
  simp

/-! ## The pixel reads -/

theorem reads_eq_flatMap (x y : Int) :
    encode_8x4.reads x y =
      (List.range 8).flatMap (fun (col : Nat) =>
        (List.range 4).map (fun (row : Nat) => (x - (col : Int), y - (row : Int)))) := by
  simp [encode_8x4.reads, List.range, List.range.loop]

theorem reads_length (x y : Int) : (encode_8x4.reads x y).length = 32 := by
  simp [encode_8x4.reads, List.range, List.range.loop]

theorem mem_reads (x y : Int) (p : Int × Int) (hp : p ∈ encode_8x4.reads x y) :
    ∃ col row : Nat, col < 8 ∧ row < 4 ∧ p = (x - (col : Int), y - (row : Int)) := by
  rw [reads_eq_flatMap, List.mem_flatMap] at hp
  obtain ⟨col, hcol, hp⟩ := hp
  rw [List.mem_map] at hp
  obtain ⟨row, hrow, hp⟩ := hp
  exact ⟨col, row, List.mem_range.mp hcol, List.mem_range.mp hrow, hp.symm⟩

theorem reads_mem (x y : Int) (col row : Nat) (hcol : col < 8) (hrow : row < 4) :
    (x - (col : Int), y - (row : Int)) ∈ encode_8x4.reads x y := by
  rw [reads_eq_flatMap, List.mem_flatMap]
  exact ⟨col, List.mem_range.mpr hcol, List.mem_map.mpr ⟨row, List.mem_range.mpr hrow, rfl⟩⟩

theorem inner_chars_reads (chars_w cy : Nat) :
    ∀ (fuel cx n : Nat) (log : List (Int × Int)), cx + fuel = chars_w → n + fuel ≤ 256 →
      dumpChars.readsInner chars_w cy fuel cx n log =
        (n + fuel, log ++ (List.range' cx fuel).flatMap (fun c => tileReads c cy)) := by
  intro fuel
  induction fuel with
  | zero => intro cx n log _ _; simp [dumpChars.readsInner]
  | succ k ih =>
    intro cx n log h1 h2
    have hc : cx < chars_w ∧ n < 256 := by omega
    rw [dumpChars.readsInner, if_pos hc]
    simp only []
    rw [ih (cx + 1) (n + 1) _ (by omega) (by omega), List.range'_succ, List.flatMap_cons]
    simp [tileReads, List.append_assoc]
    omega

theorem outer_chars_reads (chars_w chars_h : Nat) (hw : 0 < chars_w) :
    ∀ (fuel cy n : Nat) (log : List (Int × Int)), cy + fuel = chars_h →
      n + fuel * chars_w ≤ 256 →
      dumpChars.readsOuter chars_w chars_h fuel cy n log =
        (n + fuel * chars_w,
          log ++ (List.range' cy fuel).flatMap (fun r =>
            (List.range' 0 chars_w).flatMap (fun c => tileReads c r))) := by
  intro fuel
  induction fuel with
  | zero => intro cy n log _ _; simp [dumpChars.readsOuter]
  | succ k ih =>
    intro cy n log h1 h2
    have hmul : (k + 1) * chars_w = k * chars_w + chars_w := Nat.succ_mul k chars_w
    have hc : cy < chars_h ∧ n < 256 := by omega
    rw [dumpChars.readsOuter, if_pos hc]
    simp only []
    rw [inner_chars_reads chars_w cy chars_w 0 n log (by omega) (by omega)]
    simp only []
    rw [ih (cy + 1) (n + chars_w) _ (by omega) (by omega), List.range'_succ, List.flatMap_cons]
    simp [List.append_assoc]
    omega

theorem inner_sprites_reads (chars_w cy : Nat) :
    ∀ (fuel cx n : Nat) (log : List (Int × Int)), cx + fuel = chars_w → n + fuel ≤ 64 →
      dumpSprites.readsInner chars_w cy fuel cx n log =
        (n + fuel,
          log ++ (List.range' cx fuel).flatMap (fun c => spriteReads (c * 16) (cy * 16))) := by
  intro fuel
  induction fuel with
  | zero => intro cx n log _ _; simp [dumpSprites.readsInner]
  | succ k ih =>
    intro cx n log h1 h2
    have hc : cx < chars_w ∧ n < 64 := by omega
    rw [dumpSprites.readsInner, if_pos hc]
    simp only []
    rw [ih (cx + 1) (n + 1) _ (by omega) (by omega), List.range'_succ, List.flatMap_cons]
    simp [spriteReads, List.append_assoc]
    omega

theorem outer_sprites_reads (chars_w chars_h : Nat) (hw : 0 < chars_w) :
    ∀ (fuel cy n : Nat) (log : List (Int × Int)), cy + fuel = chars_h →
      n + fuel * chars_w ≤ 64 →
      dumpSprites.readsOuter chars_w chars_h fuel cy n log =
        (n + fuel * chars_w,
          log ++ (List.range' cy fuel).flatMap (fun r =>
            (List.range' 0 chars_w).flatMap (fun c => spriteReads (c * 16) (r * 16)))) := by
  intro fuel
  induction fuel with
  | zero => intro cy n log _ _; simp [dumpSprites.readsOuter]
  | succ k ih =>
    intro cy n log h1 h2
    have hmul : (k + 1) * chars_w = k * chars_w + chars_w := Nat.succ_mul k chars_w
    have hc : cy < chars_h ∧ n < 64 := by omega
    rw [dumpSprites.readsOuter, if_pos hc]
    simp only []
    rw [inner_sprites_reads chars_w cy chars_w 0 n log (by omega) (by omega)]
    simp only []
    rw [ih (cy + 1) (n + chars_w) _ (by omega) (by omega), List.range'_succ, List.flatMap_cons]
    simp [List.append_assoc]
    omega

theorem dumpChars_reads_eq (m : PalettedImage) (h : (m.Dx / 8) * (m.Dy / 8) = 256) :
    dumpChars.reads m =
      (List.range' 0 (m.Dy / 8)).flatMap (fun r =>
        (List.range' 0 (m.Dx / 8)).flatMap (fun c => tileReads c r)) := by
  have hpos := pos_of_mul_eq h (by norm_num)
  have h2 : 0 + (m.Dy / 8) * (m.Dx / 8) ≤ 256 := by rw [Nat.mul_comm]; omega
  unfold dumpChars.reads
  simp only []
  rw [outer_chars_reads (m.Dx / 8) (m.Dy / 8) hpos.1 (m.Dy / 8) 0 0 [] (by omega) h2]
  simp only [List.nil_append]

theorem dumpSprites_reads_eq (m : PalettedImage) (h : (m.Dx / 16) * (m.Dy / 16) = 64) :
    dumpSprites.reads m =
      (List.range' 0 (m.Dy / 16)).flatMap (fun r =>
        (List.range' 0 (m.Dx / 16)).flatMap (fun c => spriteReads (c * 16) (r * 16))) := by
  have hpos := pos_of_mul_eq h (by norm_num)
  have h2 : 0 + (m.Dy / 16) * (m.Dx / 16) ≤ 64 := by rw [Nat.mul_comm]; omega
  unfold dumpSprites.reads
  simp only []
  rw [outer_sprites_reads (m.Dx / 16) (m.Dy / 16) hpos.1 (m.Dy / 16) 0 0 [] (by omega) h2]
  simp only [List.nil_append]

theorem tileReads_length (cx cy : Nat) : (tileReads cx cy).length = 64 := by
  simp [tileReads, reads_length]

theorem spriteReads_length (x0 y0 : Nat) : (spriteReads x0 y0).length = 256 := by
  simp [spriteReads, reads_length]

theorem dumpChars_reads_length (m : PalettedImage) (h : (m.Dx / 8) * (m.Dy / 8) = 256) :
    (dumpChars.reads m).length = 16384 := by
  have hpos := pos_of_mul_eq h (by norm_num)
  rw [dumpChars_reads_eq m h, flatMap_raster (fun c r => tileReads c r) (m.Dx / 8) hpos.1,
    length_flatMap_const _ 64 (fun k => tileReads_length _ _), Nat.mul_comm (m.Dy / 8), h]
  simp

theorem dumpSprites_reads_length (m : PalettedImage) (h : (m.Dx / 16) * (m.Dy / 16) = 64) :
    (dumpSprites.reads m).length = 16384 := by
  have hpos := pos_of_mul_eq h (by norm_num)
  rw [dumpSprites_reads_eq m h,
    flatMap_raster (fun c r => spriteReads (c * 16) (r * 16)) (m.Dx / 16) hpos.1,
    length_flatMap_const _ 256 (fun k => spriteReads_length _ _), Nat.mul_comm (m.Dy / 16), h]
  simp

theorem dumpChars_reads_bounds (m : PalettedImage) (h : (m.Dx / 8) * (m.Dy / 8) = 256)
    (p : Int × Int) (hp : p ∈ dumpChars.reads m) :
    0 ≤ p.1 ∧ p.1 < (m.Dx : Int) ∧ 0 ≤ p.2 ∧ p.2 < (m.Dy : Int) := by
  rw [dumpChars_reads_eq m h, List.mem_flatMap] at hp
  obtain ⟨r, hr, hp⟩ := hp
  rw [List.mem_flatMap] at hp
  obtain ⟨c, hc, hp⟩ := hp
  have hr' : r < m.Dy / 8 := by
    have := List.mem_range'_1.mp hr
    omega
  have hc' : c < m.Dx / 8 := by
    have := List.mem_range'_1.mp hc
    omega
  have hx : 8 * (m.Dx / 8) ≤ m.Dx := Nat.mul_div_le m.Dx 8
  have hy : 8 * (m.Dy / 8) ≤ m.Dy := Nat.mul_div_le m.Dy 8
  rw [tileReads, List.mem_append] at hp
  rcases hp with hp | hp
  · obtain ⟨col, row, hcol, hrow, rfl⟩ := mem_reads _ _ p hp
    simp only []
    omega
  · obtain ⟨col, row, hcol, hrow, rfl⟩ := mem_reads _ _ p hp
    simp only []
    omega

theorem dumpSprites_reads_bounds (m : PalettedImage) (h : (m.Dx / 16) * (m.Dy / 16) = 64)
    (p : Int × Int) (hp : p ∈ dumpSprites.reads m) :
    0 ≤ p.1 ∧ p.1 < (m.Dx : Int) ∧ 0 ≤ p.2 ∧ p.2 < (m.Dy : Int) := by
  rw [dumpSprites_reads_eq m h, List.mem_flatMap] at hp
  obtain ⟨r, hr, hp⟩ := hp
  rw [List.mem_flatMap] at hp
  obtain ⟨c, hc, hp⟩ := hp
  have hr' : r < m.Dy / 16 := by
    have := List.mem_range'_1.mp hr
    omega
  have hc' : c < m.Dx / 16 := by
    have := List.mem_range'_1.mp hc
    omega
  have hx : 16 * (m.Dx / 16) ≤ m.Dx := Nat.mul_div_le m.Dx 16
  have hy : 16 * (m.Dy / 16) ≤ m.Dy := Nat.mul_div_le m.Dy 16
  simp only [spriteReads, List.mem_append] at hp
  rcases hp with ((((((hp | hp) | hp) | hp) | hp) | hp) | hp) | hp <;>
  · obtain ⟨col, row, hcol, hrow, rfl⟩ := mem_reads _ _ p hp
    simp only []
    omega

/-! ## Indexing the tile-mode buffer -/

theorem getD_flatMap_const (f : Nat → List Nat) (n : Nat) (hf : ∀ k, (f k).length = n) :
    ∀ (N i : Nat), i < N * n →
      ((List.range N).flatMap f).getD i 0 = (f (i / n)).getD (i % n) 0 := by
  intro N
  induction N with
  | zero => intro i hi; simp at hi
  | succ k ih =>
    intro i hi
    have hlen : ((List.range k).flatMap f).length = k * n := by
      rw [length_flatMap_const f n hf, List.length_range]
    rw [List.range_succ, List.flatMap_append, List.flatMap_singleton]
    by_cases hlt : i < k * n
    · rw [List.getD_append _ _ _ _ (by rw [hlen]; exact hlt)]
      exact ih i hlt
    · have hge : k * n ≤ i := Nat.le_of_not_lt hlt
      rw [List.getD_append_right _ _ _ _ (by rw [hlen]; exact hge), hlen]
      have hd : i / n = k := Nat.div_eq_of_lt_le hge hi
      have hm := Nat.div_add_mod i n
      rw [hd] at hm
      have hsub : i - k * n = i % n := by
        rw [Nat.mul_comm] at hm; omega
      rw [hd, hsub]

/-- Byte `j` of a tile block: bytes 0-7 are the lower band (reference row
`cy*8+7`), bytes 8-15 the upper band (reference row `cy*8+3`); the column is
`j mod 8`. -/
theorem tileBlock_getD (m : PalettedImage) (cx cy j : Nat) (hj : j < 16) :
    (tileBlock m cx cy).getD j 0 =
      encode_8x4.column m ((cx * 8 + 7 : Nat) : Int)
        ((cy * 8 + (if j < 8 then 7 else 3) : Nat) : Int) (j % 8) := by
  unfold tileBlock
  by_cases h8 : j < 8
  · rw [List.getD_append _ _ _ _ (by rw [encode_8x4_length]; exact h8),
      encode_8x4_getD _ _ _ _ h8, if_pos h8, Nat.mod_eq_of_lt h8]
  · have hge : 8 ≤ j := Nat.le_of_not_lt h8
    have hm : j % 8 = j - 8 := by omega
    rw [List.getD_append_right _ _ _ _ (by rw [encode_8x4_length]; exact hge),
      encode_8x4_length, encode_8x4_getD _ _ _ _ (by omega), if_neg h8, hm]

/-- Byte `j` of the block of tile `(cx, cy)` in the tile-mode buffer. -/
theorem dumpChars_byte_at (m : PalettedImage) (h : (m.Dx / 8) * (m.Dy / 8) = 256)
    (cx cy j : Nat) (hcx : cx < m.Dx / 8) (hcy : cy < m.Dy / 8) (hj : j < 16) :
    (dumpChars.buf m).getD (16 * (cy * (m.Dx / 8) + cx) + j) 0 =
      encode_8x4.column m ((cx * 8 + 7 : Nat) : Int)
        ((cy * 8 + (if j < 8 then 7 else 3) : Nat) : Int) (j % 8) := by
  have hpos := pos_of_mul_eq h (by norm_num)
  have hle : (cy + 1) * (m.Dx / 8) ≤ (m.Dy / 8) * (m.Dx / 8) :=
    Nat.mul_le_mul_right _ hcy
  have hs : (cy + 1) * (m.Dx / 8) = cy * (m.Dx / 8) + m.Dx / 8 := Nat.succ_mul _ _
  have hcomm : (m.Dy / 8) * (m.Dx / 8) = 256 := by rw [Nat.mul_comm]; exact h
  have hk : cy * (m.Dx / 8) + cx < 256 := by omega
  have hdiv : (16 * (cy * (m.Dx / 8) + cx) + j) / 16 = cy * (m.Dx / 8) + cx := by omega
  have hmod : (16 * (cy * (m.Dx / 8) + cx) + j) % 16 = j := by omega
  have e1 : (cy * (m.Dx / 8) + cx) % (m.Dx / 8) = cx := by
    rw [Nat.mul_comm, Nat.mul_add_mod]; exact Nat.mod_eq_of_lt hcx
  have e2 : (cy * (m.Dx / 8) + cx) / (m.Dx / 8) = cy := by
    rw [Nat.mul_comm, Nat.mul_add_div hpos.1, Nat.div_eq_of_lt hcx, Nat.add_zero]
  rw [dumpChars_buf_eq m h,
    getD_flatMap_const _ 16 (fun k => tileBlock_length m _ _) 256 _ (by omega),
    hdiv, hmod, e1, e2, tileBlock_getD m cx cy j hj]

/-- Every index of the tile-mode buffer is byte `j` of some tile `(cx, cy)`. -/
theorem dumpChars_index_split (m : PalettedImage) (h : (m.Dx / 8) * (m.Dy / 8) = 256)
    (i : Nat) (hi : i < 4096) :
    ∃ cx cy j : Nat, cx < m.Dx / 8 ∧ cy < m.Dy / 8 ∧ j < 16 ∧
      i = 16 * (cy * (m.Dx / 8) + cx) + j := by
  have hpos := pos_of_mul_eq h (by norm_num)
  refine ⟨(i / 16) % (m.Dx / 8), (i / 16) / (m.Dx / 8), i % 16,
    Nat.mod_lt _ hpos.1, ?_, Nat.mod_lt _ (by norm_num), ?_⟩
  · apply Nat.div_lt_of_lt_mul
    rw [h]; omega
  · have hk := Nat.div_add_mod (i / 16) (m.Dx / 8)
    rw [Nat.mul_comm] at hk
    rw [hk]; omega

/-- A column whose four pixels all have index 0 is the byte 0. -/
theorem column_zero (m : PalettedImage) (x y : Int) (col : Nat)
    (hz : ∀ row : Nat, row < 4 → m.ColorIndexAt (x - (col : Int)) (y - (row : Int)) = 0) :
    encode_8x4.column m x y col = 0 := by
  have h0 := hz 0 (by norm_num)
  have h1 := hz 1 (by norm_num)
  have h2 := hz 2 (by norm_num)
  have h3 := hz 3 (by norm_num)
  simp only [encode_8x4.column, List.range, List.range.loop, List.foldl]
  rw [h0, h1, h2, h3]
  rfl

/-- A column with a single pixel of index `v`, in row `row`, and index 0 in the
other three rows. -/
theorem column_single (m : PalettedImage) (x y : Int) (col row : Nat) (v : uint8)
    (hrow : row < 4)
    (hv : m.ColorIndexAt (x - (col : Int)) (y - (row : Int)) = v)
    (hz : ∀ r : Nat, r < 4 → r ≠ row →
      m.ColorIndexAt (x - (col : Int)) (y - (r : Int)) = 0)
    (j : Nat) :
    (encode_8x4.column m x y col).testBit j =
      ((decide (j = row) && v.val.testBit 0) || (decide (j = 4 + row) && v.val.testBit 1)) := by
  rw [column_testBit]
  interval_cases row
  · have h1 := hz 1 (by norm_num) (by norm_num)
    have h2 := hz 2 (by norm_num) (by norm_num)
    have h3 := hz 3 (by norm_num) (by norm_num)
    simp only [Nat.cast_ofNat, Nat.cast_zero, Nat.cast_one] at hv h1 h2 h3
    rw [hv, h1, h2, h3]
    simp
  · have h0 := hz 0 (by norm_num) (by norm_num)
    have h2 := hz 2 (by norm_num) (by norm_num)
    have h3 := hz 3 (by norm_num) (by norm_num)
    simp only [Nat.cast_ofNat, Nat.cast_zero, Nat.cast_one] at hv h0 h2 h3
    rw [hv, h0, h2, h3]
    simp
  · have h0 := hz 0 (by norm_num) (by norm_num)
    have h1 := hz 1 (by norm_num) (by norm_num)
    have h3 := hz 3 (by norm_num) (by norm_num)
    simp only [Nat.cast_ofNat, Nat.cast_zero, Nat.cast_one] at hv h0 h1 h3
    rw [hv, h0, h1, h3]
    simp
  · have h0 := hz 0 (by norm_num) (by norm_num)
    have h1 := hz 1 (by norm_num) (by norm_num)
    have h2 := hz 2 (by norm_num) (by norm_num)
    simp only [Nat.cast_ofNat, Nat.cast_zero, Nat.cast_one] at hv h0 h1 h2
    rw [hv, h0, h1, h2]
    simp

/-! ## A single non-background pixel in tile mode -/

theorem onePixelImage_at (dx dy px py : Nat) (v : uint8) :
    (onePixelImage dx dy px py v).ColorIndexAt (px : Int) (py : Int) = v := by
  simp [onePixelImage]

theorem onePixelImage_off (dx dy px py : Nat) (v : uint8) (x y : Int)
    (h : ¬ (x = (px : Int) ∧ y = (py : Int))) :
    (onePixelImage dx dy px py v).ColorIndexAt x y = 0 := by
  simp only [onePixelImage]
  rw [if_neg h]

/-- The byte that samples the pixel `(px, py)`. -/
theorem single_pixel_hit (m : PalettedImage) (px py : Nat) (v : uint8)
    (h : (m.Dx / 8) * (m.Dy / 8) = 256)
    (hpx : px < 8 * (m.Dx / 8)) (hpy : py < 8 * (m.Dy / 8))
    (hpix : m.ColorIndexAt (px : Int) (py : Int) = v)
    (hz : ∀ x y : Int, 0 ≤ x → x < (m.Dx : Int) → 0 ≤ y → y < (m.Dy : Int) →
      ¬ (x = (px : Int) ∧ y = (py : Int)) → m.ColorIndexAt x y = 0)
    (j : Nat) :
    ((dumpChars.buf m).getD
        (16 * ((py / 8) * (m.Dx / 8) + px / 8) + (if 4 ≤ py % 8 then 0 else 8)
          + (7 - px % 8)) 0).testBit j =
      ((decide (j = 3 - py % 4) && v.val.testBit 0) ||
        (decide (j = 4 + (3 - py % 4)) && v.val.testBit 1)) := by
  have hcx : px / 8 < m.Dx / 8 := by omega
  have hcy : py / 8 < m.Dy / 8 := by omega
  have hx8 : 8 * (m.Dx / 8) ≤ m.Dx := Nat.mul_div_le _ _
  have hy8 : 8 * (m.Dy / 8) ≤ m.Dy := Nat.mul_div_le _ _
  have key : ∀ a b : Int, a = (px : Int) → b = (py : Int) → m.ColorIndexAt a b = v := by
    intro a b ha hb
    rw [ha, hb]
    exact hpix
  by_cases hb : 4 ≤ py % 8
  · have hidx : 16 * ((py / 8) * (m.Dx / 8) + px / 8) + (if 4 ≤ py % 8 then 0 else 8)
          + (7 - px % 8) = 16 * ((py / 8) * (m.Dx / 8) + px / 8) + (7 - px % 8) := by
      rw [if_pos hb, Nat.add_zero]
    have hj8 : 7 - px % 8 < 8 := by omega
    rw [hidx, dumpChars_byte_at m h (px / 8) (py / 8) (7 - px % 8) hcx hcy (by omega)]
    simp only [if_pos hj8]
    apply column_single m _ _ _ (3 - py % 4) v (by omega)
    · exact key _ _ (by omega) (by omega)
    · intro r hr hne
      exact hz _ _ (by omega) (by omega) (by omega) (by omega) (by omega)
  · have hidx : 16 * ((py / 8) * (m.Dx / 8) + px / 8) + (if 4 ≤ py % 8 then 0 else 8)
          + (7 - px % 8) = 16 * ((py / 8) * (m.Dx / 8) + px / 8) + (8 + (7 - px % 8)) := by
      rw [if_neg hb]; omega
    have hj8 : ¬ (8 + (7 - px % 8) < 8) := by omega
    rw [hidx, dumpChars_byte_at m h (px / 8) (py / 8) (8 + (7 - px % 8)) hcx hcy (by omega)]
    simp only [if_neg hj8]
    apply column_single m _ _ _ (3 - py % 4) v (by omega)
    · exact key _ _ (by omega) (by omega)
    · intro r hr hne
      exact hz _ _ (by omega) (by omega) (by omega) (by omega) (by omega)

/-- Every other byte samples background pixels only. -/
theorem single_pixel_miss (m : PalettedImage) (px py : Nat)
    (h : (m.Dx / 8) * (m.Dy / 8) = 256)
    (hz : ∀ x y : Int, 0 ≤ x → x < (m.Dx : Int) → 0 ≤ y → y < (m.Dy : Int) →
      ¬ (x = (px : Int) ∧ y = (py : Int)) → m.ColorIndexAt x y = 0)
    (i : Nat) (hi : i < 4096)
    (hne : i ≠ 16 * ((py / 8) * (m.Dx / 8) + px / 8) + (if 4 ≤ py % 8 then 0 else 8)
          + (7 - px % 8)) :
    (dumpChars.buf m).getD i 0 = 0 := by
  have hx8 : 8 * (m.Dx / 8) ≤ m.Dx := Nat.mul_div_le _ _
  have hy8 : 8 * (m.Dy / 8) ≤ m.Dy := Nat.mul_div_le _ _
  obtain ⟨cx, cy, j, hcx, hcy, hj, rfl⟩ := dumpChars_index_split m h i hi
  rw [dumpChars_byte_at m h cx cy j hcx hcy hj]
  apply column_zero
  intro row hrow
  by_cases h8 : j < 8
  · simp only [if_pos h8]
    refine hz _ _ (by omega) (by omega) (by omega) (by omega) ?_
    rintro ⟨ex, ey⟩
    apply hne
    have hcx' : px / 8 = cx := by omega
    have hcy' : py / 8 = cy := by omega
    have hb : 4 ≤ py % 8 := by omega
    rw [hcx', hcy', if_pos hb]
    omega
  · simp only [if_neg h8]
    refine hz _ _ (by omega) (by omega) (by omega) (by omega) ?_
    rintro ⟨ex, ey⟩
    apply hne
    have hcx' : px / 8 = cx := by omega
    have hcy' : py / 8 = cy := by omega
    have hb : ¬ (4 ≤ py % 8) := by omega
    rw [hcx', hcy', if_neg hb]
    omega

/-- When every pixel inside the tiled area has index 0, tile mode writes 4096
zero bytes. -/
theorem dumpChars_buf_zero (m : PalettedImage) (h : (m.Dx / 8) * (m.Dy / 8) = 256)
    (hz : ∀ x y : Int, 0 ≤ x → x < ((8 * (m.Dx / 8) : Nat) : Int) → 0 ≤ y →
      y < ((8 * (m.Dy / 8) : Nat) : Int) → m.ColorIndexAt x y = 0) :
    dumpChars.buf m = List.replicate 4096 0 := by
  rw [List.eq_replicate_iff]
  refine ⟨dumpChars_buf_length m h, ?_⟩
  intro b hb
  obtain ⟨i, hi, rfl⟩ := List.getElem_of_mem hb
  rw [dumpChars_buf_length m h] at hi
  rw [← List.getD_eq_getElem (dumpChars.buf m) 0]
  obtain ⟨cx, cy, j, hcx, hcy, hj, rfl⟩ := dumpChars_index_split m h i hi
  rw [dumpChars_byte_at m h cx cy j hcx hcy hj]
  apply column_zero
  intro row hrow
  by_cases h8 : j < 8
  · simp only [if_pos h8]
    exact hz _ _ (by omega) (by omega) (by omega) (by omega)
  · simp only [if_neg h8]
    exact hz _ _ (by omega) (by omega) (by omega) (by omega)

/-! ## The palette loop -/

theorem palette_loop_rgba (rs : List RGBA) :
    ∀ (n : Nat) (buf : List Nat), n ≤ buf.length → n ≤ rs.length →
      (List.range n).foldl (fun (st : Option (List Nat)) (i : Nat) =>
        match st with
        | none => none
        | some buf =>
          match (rs.map Color.rgba).getD i (Color.rgba ⟨0, 0, 0, 0⟩) with
          | Color.rgba c => some (buf.set i (dumpPalette.entry c))
          | Color.nrgba _ => none) (some buf) =
        some ((List.range n).map (fun i => dumpPalette.entry (rs.getD i ⟨0, 0, 0, 0⟩))
          ++ buf.drop n) := by
  intro n
  induction n with
  | zero => intro buf _ _; simp
  | succ k ih =>
    intro buf hk hr
    have hlt : k < buf.length := by omega
    have hget : (rs.map Color.rgba).getD k (Color.rgba ⟨0, 0, 0, 0⟩) =
        Color.rgba (rs.getD k ⟨0, 0, 0, 0⟩) := by
      rw [List.getD_eq_getElem _ _ (by rw [List.length_map]; omega),
        List.getD_eq_getElem _ _ (by omega), List.getElem_map]
    rw [List.range_succ, List.foldl_append, ih buf (by omega) (by omega)]
    simp only [List.foldl_cons, List.foldl_nil, List.map_append, List.map_cons, List.map_nil,
      hget]
    rw [List.set_append, if_neg (by simp)]
    have hd : (List.drop k buf).set 0 (dumpPalette.entry (rs.getD k ⟨0, 0, 0, 0⟩)) =
        dumpPalette.entry (rs.getD k ⟨0, 0, 0, 0⟩) :: List.drop (k + 1) buf := by
      rw [List.drop_eq_getElem_cons hlt, List.set_cons_zero]
    have hz : k - (List.map (fun i => dumpPalette.entry (rs.getD i ⟨0, 0, 0, 0⟩))
        (List.range k)).length = 0 := by simp
    rw [hz, hd, List.append_assoc, List.singleton_append]

/-- With 32 palette entries, all of them `color.RGBA`, the loop of
`dumpPalette` does not panic and fills the whole buffer, entry by entry. -/
theorem dumpPalette_buf_rgba (rs : List RGBA) (h : rs.length = 32) :
    dumpPalette.buf (rs.map Color.rgba) = some (rs.map dumpPalette.entry) := by
  unfold dumpPalette.buf
  rw [palette_loop_rgba rs (rs.map Color.rgba).length (List.replicate 32 0)
    (by simp [h]) (by simp), List.length_map, h]
  simp only [List.drop_replicate, Nat.sub_self, List.replicate_zero, List.append_nil]
  congr 1
  apply List.ext_getElem
  · simp [h]
  · intro i h1 h2
    simp at h1
    simp [List.getD_eq_getElem, h, h1]

theorem palette_loop_panicked (pal : List Color) (l : List Nat) :
    l.foldl (fun (st : Option (List Nat)) (i : Nat) =>
      match st with
      | none => none
      | some buf =>
        match pal.getD i (Color.rgba ⟨0, 0, 0, 0⟩) with
        | Color.rgba c => some (buf.set i (dumpPalette.entry c))
        | Color.nrgba _ => none) none = none := by
  induction l with
  | nil => rfl
  | cons a t ih => simpa using ih

/-- The loop of `dumpPalette` panics as soon as one entry is a `color.NRGBA`. -/
theorem dumpPalette_buf_nrgba (pal : List Color) (i : Nat) (c : NRGBA)
    (hi : i < pal.length) (hc : pal.getD i (Color.rgba ⟨0, 0, 0, 0⟩) = Color.nrgba c) :
    dumpPalette.buf pal = none := by
  unfold dumpPalette.buf
  have key : ∀ (n : Nat), i < n → ∀ st : Option (List Nat),
      (List.range n).foldl (fun (st : Option (List Nat)) (i : Nat) =>
        match st with
        | none => none
        | some buf =>
          match pal.getD i (Color.rgba ⟨0, 0, 0, 0⟩) with
          | Color.rgba c => some (buf.set i (dumpPalette.entry c))
          | Color.nrgba _ => none) st = none := by
    intro n
    induction n with
    | zero => intro h; omega
    | succ k ih =>
      intro h st
      rw [List.range_succ, List.foldl_append]
      by_cases hk : i < k
      · rw [ih hk st]
        rfl
      · have e : i = k := by omega
        subst e
        simp only [List.foldl_cons, List.foldl_nil, hc]
        cases (List.range i).foldl _ st <;> rfl
  exact key pal.length hi _

theorem dumpPalette_bad (m : PalettedImage) (out : Writer) (h : m.Palette.length ≠ 32) :
    dumpPalette m out =
      Outcome.returned out
        (some (Error.Errorf "Expected 32 colours, got %d" m.Palette.length)) := by
  unfold dumpPalette
  simp only [ne_eq, h, not_false_eq_true, if_true]

/-- On 32 entries that are all `color.RGBA`, `dumpPalette` hands the encoded
entries to the sink in one `Write` and returns what that `Write` returns. -/
theorem dumpPalette_ok (m : PalettedImage) (out : Writer) (rs : List RGBA)
    (hp : m.Palette = rs.map Color.rgba) (h : rs.length = 32) :
    dumpPalette m out =
      Outcome.returned (out.Write (rs.map dumpPalette.entry)).1
        (out.result (rs.map dumpPalette.entry)) := by
  have hl : m.Palette.length = 32 := by rw [hp, List.length_map, h]
  unfold dumpPalette
  simp only [hl, ne_eq, not_true_eq_false, if_false]
  rw [hp, dumpPalette_buf_rgba rs h]
  rfl

/-- On 32 entries of which one is a `color.NRGBA`, `dumpPalette` passes the
size check and panics before it reaches `Write`. -/
theorem dumpPalette_panics (m : PalettedImage) (out : Writer) (i : Nat) (c : NRGBA)
    (hl : m.Palette.length = 32) (hi : i < 32)
    (hc : m.Palette.getD i (Color.rgba ⟨0, 0, 0, 0⟩) = Color.nrgba c) :
    dumpPalette m out = Outcome.panicked out := by
  unfold dumpPalette
  simp only [hl, ne_eq, not_true_eq_false, if_false]
  rw [dumpPalette_buf_nrgba m.Palette i c (by omega) hc]

/-- The bits of the palette byte: bits 7-6 are the top 2 bits of Blue, bits
5-3 the top 3 bits of Green, bits 2-0 the top 3 bits of Red. -/
theorem entry_bit_layout (c : RGBA) :
    (dumpPalette.entry c).testBit 7 = c.B.val.testBit 7 ∧
    (dumpPalette.entry c).testBit 6 = c.B.val.testBit 6 ∧
    (dumpPalette.entry c).testBit 5 = c.G.val.testBit 7 ∧
    (dumpPalette.entry c).testBit 4 = c.G.val.testBit 6 ∧
    (dumpPalette.entry c).testBit 3 = c.G.val.testBit 5 ∧
    (dumpPalette.entry c).testBit 2 = c.R.val.testBit 7 ∧
    (dumpPalette.entry c).testBit 1 = c.R.val.testBit 6 ∧
    (dumpPalette.entry c).testBit 0 = c.R.val.testBit 5 := by
  simp only [dumpPalette.entry, Nat.testBit_or, Nat.testBit_and, Nat.testBit_shiftRight]
  simp [show Nat.testBit 192 0 = false by decide, show Nat.testBit 192 1 = false by decide,
    show Nat.testBit 192 2 = false by decide, show Nat.testBit 192 3 = false by decide,
    show Nat.testBit 192 4 = false by decide, show Nat.testBit 192 5 = false by decide,
    show Nat.testBit 192 6 = true by decide, show Nat.testBit 192 7 = true by decide,
    show Nat.testBit 224 2 = false by decide, show Nat.testBit 224 3 = false by decide,
    show Nat.testBit 224 4 = false by decide, show Nat.testBit 224 5 = true by decide,
    show Nat.testBit 224 6 = true by decide, show Nat.testBit 224 7 = true by decide,
    show Nat.testBit 224 8 = false by decide, show Nat.testBit 224 9 = false by decide,
    show Nat.testBit 224 10 = false by decide, show Nat.testBit 224 11 = false by decide,
    show Nat.testBit 224 12 = false by decide]

theorem dumpChars_ok (outfile : Writer) (m : PalettedImage)
    (h : (m.Dx / 8) * (m.Dy / 8) = 256) :
    dumpChars outfile m = outfile.Write (dumpChars.buf m) := by
  unfold dumpChars
  simp only [h, ne_eq, not_true_eq_false, if_false]

theorem dumpChars_bad (outfile : Writer) (m : PalettedImage)
    (h : (m.Dx / 8) * (m.Dy / 8) ≠ 256) :
    dumpChars outfile m =
      (outfile, some (Error.Errorf "bad size - expected 256 8x8 characters, got %d"
        ((m.Dx / 8) * (m.Dy / 8)))) := by
  unfold dumpChars
  simp only [ne_eq, h, not_false_eq_true, if_true]

theorem dumpSprites_ok (outfile : Writer) (m : PalettedImage)
    (h : (m.Dx / 16) * (m.Dy / 16) = 64) :
    dumpSprites outfile m = outfile.Write (dumpSprites.buf m) := by
  unfold dumpSprites
  simp only [h, ne_eq, not_true_eq_false, if_false]

theorem dumpSprites_bad (outfile : Writer) (m : PalettedImage)
    (h : (m.Dx / 16) * (m.Dy / 16) ≠ 64) :
    dumpSprites outfile m =
      (outfile, some (Error.Errorf "bad size - expected 64 16x16 sprites, got %d"
        ((m.Dx / 16) * (m.Dy / 16)))) := by
  unfold dumpSprites
  simp only [ne_eq, h, not_false_eq_true, if_true]

/-! ## Uniform regions -/

/-- A column whose four pixels all have index 3 is the byte `0xFF`. -/
theorem column_ff (m : PalettedImage) (x y : Int) (col : Nat)
    (hz : ∀ row : Nat, row < 4 → m.ColorIndexAt (x - (col : Int)) (y - (row : Int)) = 3) :
    encode_8x4.column m x y col = 0xFF := by
  have h0 := hz 0 (by norm_num)
  have h1 := hz 1 (by norm_num)
  have h2 := hz 2 (by norm_num)
  have h3 := hz 3 (by norm_num)
  simp only [encode_8x4.column, List.range, List.range.loop, List.foldl]
  rw [h0, h1, h2, h3]
  rfl

theorem encode_8x4_const (m : PalettedImage) (x y : Int) (b : Nat)
    (h : ∀ col : Nat, col < 8 → encode_8x4.column m x y col = b) :
    encode_8x4 m x y = List.replicate 8 b := by
  rw [encode_8x4_eq_map, List.eq_replicate_iff]
  refine ⟨by simp, ?_⟩
  intro c hc
  obtain ⟨col, hcol, rfl⟩ := List.mem_map.mp hc
  exact h col (List.mem_range.mp hcol)

/-! ## The palette byte -/

set_option maxRecDepth 100000 in
theorem blue_field : ∀ x : Fin 256, x.val &&& 0xc0 = 64 * (x.val / 64) := by decide

set_option maxRecDepth 100000 in
theorem green_field : ∀ x : Fin 256,
    (x.val &&& 0xe0) >>> 2 = 8 * (x.val / 32) ∧ x.val &&& 0xe0 = 32 * (x.val / 32) := by
  decide

set_option maxRecDepth 100000 in
theorem red_field : ∀ x : Fin 256,
    (x.val &&& 0xe0) >>> 5 = x.val / 32 ∧ x.val &&& 0xe0 = 32 * (x.val / 32) := by
  decide

set_option maxRecDepth 100000 in
theorem packed_fields : ∀ (a : Fin 4) (g r : Fin 8),
    ((64 * a.val ||| 8 * g.val ||| r.val) &&& 0xC0 = 64 * a.val) ∧
    (((64 * a.val ||| 8 * g.val ||| r.val) &&& 0x38) <<< 2 = 32 * g.val) ∧
    (((64 * a.val ||| 8 * g.val ||| r.val) &&& 0x07) <<< 5 = 32 * r.val) ∧
    (64 * a.val ||| 8 * g.val ||| r.val) < 256 := by
  decide

/-- The palette byte packs `B / 64`, `G / 32` and `R / 32`. -/
theorem entry_eq_packed (c : RGBA) :
    dumpPalette.entry c = (64 * (c.B.val / 64) ||| 8 * (c.G.val / 32) ||| c.R.val / 32) := by
  unfold dumpPalette.entry
  rw [blue_field c.B, (green_field c.G).1, (red_field c.R).1]

theorem entry_fields (c : RGBA) :
    (dumpPalette.entry c &&& 0xC0 = c.B.val &&& 0xC0) ∧
    ((dumpPalette.entry c &&& 0x38) <<< 2 = c.G.val &&& 0xE0) ∧
    ((dumpPalette.entry c &&& 0x07) <<< 5 = c.R.val &&& 0xE0) ∧
    dumpPalette.entry c < 256 := by
  have hB : c.B.val / 64 < 4 := by have := c.B.isLt; omega
  have hG : c.G.val / 32 < 8 := by have := c.G.isLt; omega
  have hR : c.R.val / 32 < 8 := by have := c.R.isLt; omega
  have hp := packed_fields ⟨c.B.val / 64, hB⟩ ⟨c.G.val / 32, hG⟩ ⟨c.R.val / 32, hR⟩
  simp only [] at hp
  rw [entry_eq_packed, blue_field c.B, (green_field c.G).2, (red_field c.R).2]
  exact hp

set_option maxRecDepth 100000 in
/-- Every byte value is the palette byte of the colour re-derived from it. -/
theorem entry_rederive : ∀ b : Fin 256, dumpPalette.entry (rederiveColour b.val) = b.val := by
  decide

/-! ## Only the low two bits of a colour index matter -/

theorem low_bits_of_agree (p q : Nat) (h : p &&& 3 = q &&& 3) :
    p &&& 0x01 = q &&& 0x01 ∧ p &&& 0x02 = q &&& 0x02 := by
  have c1 : (3 : Nat) &&& 0x01 = 0x01 := by decide
  have c2 : (3 : Nat) &&& 0x02 = 0x02 := by decide
  have e1 : ∀ t : Nat, t &&& 0x01 = (t &&& 3) &&& 0x01 := by
    intro t
    rw [Nat.and_assoc, c1]
  have e2 : ∀ t : Nat, t &&& 0x02 = (t &&& 3) &&& 0x02 := by
    intro t
    rw [Nat.and_assoc, c2]
  constructor
  · rw [e1 p, e1 q, h]
  · rw [e2 p, e2 q, h]

theorem column_congr_mod4 (m1 m2 : PalettedImage) (x y : Int) (col : Nat)
    (h : ∀ row : Nat, row < 4 →
      (m1.ColorIndexAt (x - (col : Int)) (y - (row : Int))).val &&& 3 =
        (m2.ColorIndexAt (x - (col : Int)) (y - (row : Int))).val &&& 3) :
    encode_8x4.column m1 x y col = encode_8x4.column m2 x y col := by
  have h0 := low_bits_of_agree _ _ (h 0 (by norm_num))
  have h1 := low_bits_of_agree _ _ (h 1 (by norm_num))
  have h2 := low_bits_of_agree _ _ (h 2 (by norm_num))
  have h3 := low_bits_of_agree _ _ (h 3 (by norm_num))
  simp only [encode_8x4.column, List.range, List.range.loop, List.foldl]
  rw [h0.1, h0.2, h1.1, h1.2, h2.1, h2.2, h3.1, h3.2]

theorem encode_8x4_congr_mod4 (m1 m2 : PalettedImage) (x y : Int)
    (h : ∀ col row : Nat, col < 8 → row < 4 →
      (m1.ColorIndexAt (x - (col : Int)) (y - (row : Int))).val &&& 3 =
        (m2.ColorIndexAt (x - (col : Int)) (y - (row : Int))).val &&& 3) :
    encode_8x4 m1 x y = encode_8x4 m2 x y := by
  rw [encode_8x4_eq_map, encode_8x4_eq_map]
  apply List.map_congr_left
  intro col hcol
  exact column_congr_mod4 m1 m2 x y col (fun row hrow => h col row (List.mem_range.mp hcol) hrow)

/-- A region that lies inside the grid is encoded alike for two grids that
agree modulo 4 inside the grid. -/
theorem encode_8x4_congr_grid (m1 m2 : PalettedImage)
    (h : ∀ x y : Int, 0 ≤ x → x < (m1.Dx : Int) → 0 ≤ y → y < (m1.Dy : Int) →
      (m1.ColorIndexAt x y).val &&& 3 = (m2.ColorIndexAt x y).val &&& 3)
    (a b : Nat) (ha : 7 ≤ a) (ha' : a < m1.Dx) (hb : 3 ≤ b) (hb' : b < m1.Dy) :
    encode_8x4 m1 (a : Int) (b : Int) = encode_8x4 m2 (a : Int) (b : Int) := by
  apply encode_8x4_congr_mod4
  intro col row hcol hrow
  exact h _ _ (by omega) (by omega) (by omega) (by omega)

theorem tileBlock_congr_grid (m1 m2 : PalettedImage)
    (h : ∀ x y : Int, 0 ≤ x → x < (m1.Dx : Int) → 0 ≤ y → y < (m1.Dy : Int) →
      (m1.ColorIndexAt x y).val &&& 3 = (m2.ColorIndexAt x y).val &&& 3)
    (cx cy : Nat) (hcx : cx < m1.Dx / 8) (hcy : cy < m1.Dy / 8) :
    tileBlock m1 cx cy = tileBlock m2 cx cy := by
  have hx8 : 8 * (m1.Dx / 8) ≤ m1.Dx := Nat.mul_div_le _ _
  have hy8 : 8 * (m1.Dy / 8) ≤ m1.Dy := Nat.mul_div_le _ _
  unfold tileBlock
  rw [encode_8x4_congr_grid m1 m2 h (cx * 8 + 7) (cy * 8 + 7) (by omega) (by omega) (by omega)
      (by omega),
    encode_8x4_congr_grid m1 m2 h (cx * 8 + 7) (cy * 8 + 3) (by omega) (by omega) (by omega)
      (by omega)]

theorem spriteBlock_congr_grid (m1 m2 : PalettedImage)
    (h : ∀ x y : Int, 0 ≤ x → x < (m1.Dx : Int) → 0 ≤ y → y < (m1.Dy : Int) →
      (m1.ColorIndexAt x y).val &&& 3 = (m2.ColorIndexAt x y).val &&& 3)
    (sx sy : Nat) (hsx : sx < m1.Dx / 16) (hsy : sy < m1.Dy / 16) :
    spriteBlock m1 (16 * sx) (16 * sy) = spriteBlock m2 (16 * sx) (16 * sy) := by
  have hx : 16 * (m1.Dx / 16) ≤ m1.Dx := Nat.mul_div_le _ _
  have hy : 16 * (m1.Dy / 16) ≤ m1.Dy := Nat.mul_div_le _ _
  have key : ∀ a b : Nat, 7 ≤ a → a < m1.Dx → 3 ≤ b → b < m1.Dy →
      encode_8x4 m1 (a : Int) (b : Int) = encode_8x4 m2 (a : Int) (b : Int) :=
    encode_8x4_congr_grid m1 m2 h
  unfold spriteBlock
  rw [key (16 * sx + 15) (16 * sy + 15) (by omega) (by omega) (by omega) (by omega),
    key (16 * sx + 15) (16 * sy + 3) (by omega) (by omega) (by omega) (by omega),
    key (16 * sx + 15) (16 * sy + 7) (by omega) (by omega) (by omega) (by omega),
    key (16 * sx + 15) (16 * sy + 11) (by omega) (by omega) (by omega) (by omega),
    key (16 * sx + 7) (16 * sy + 15) (by omega) (by omega) (by omega) (by omega),
    key (16 * sx + 7) (16 * sy + 3) (by omega) (by omega) (by omega) (by omega),
    key (16 * sx + 7) (16 * sy + 7) (by omega) (by omega) (by omega) (by omega),
    key (16 * sx + 7) (16 * sy + 11) (by omega) (by omega) (by omega) (by omega)]

theorem index_1_5_agree : ((1 : uint8).val &&& 3) = ((5 : uint8).val &&& 3) := by decide

theorem dumpChars_congr_grid (outfile : Writer) (m1 m2 : PalettedImage)
    (hdx : m1.Dx = m2.Dx) (hdy : m1.Dy = m2.Dy)
    (h : ∀ x y : Int, 0 ≤ x → x < (m1.Dx : Int) → 0 ≤ y → y < (m1.Dy : Int) →
      (m1.ColorIndexAt x y).val &&& 3 = (m2.ColorIndexAt x y).val &&& 3) :
    dumpChars outfile m1 = dumpChars outfile m2 := by
  by_cases hc : (m1.Dx / 8) * (m1.Dy / 8) = 256
  · have hc2 : (m2.Dx / 8) * (m2.Dy / 8) = 256 := by rw [← hdx, ← hdy]; exact hc
    have hpos := pos_of_mul_eq hc (by norm_num)
    rw [dumpChars_ok outfile m1 hc, dumpChars_ok outfile m2 hc2, dumpChars_buf_eq m1 hc,
      dumpChars_buf_eq m2 hc2, ← hdx]
    refine congrArg outfile.Write ?_
    apply List.flatMap_congr
    intro k hk
    have hk' : k < 256 := List.mem_range.mp hk
    exact tileBlock_congr_grid m1 m2 h _ _ (Nat.mod_lt _ hpos.1)
      (Nat.div_lt_of_lt_mul (by rw [hc]; exact hk'))
  · have hc2 : (m2.Dx / 8) * (m2.Dy / 8) ≠ 256 := by rw [← hdx, ← hdy]; exact hc
    rw [dumpChars_bad outfile m1 hc, dumpChars_bad outfile m2 hc2, hdx, hdy]

theorem dumpSprites_congr_grid (outfile : Writer) (m1 m2 : PalettedImage)
    (hdx : m1.Dx = m2.Dx) (hdy : m1.Dy = m2.Dy)
    (h : ∀ x y : Int, 0 ≤ x → x < (m1.Dx : Int) → 0 ≤ y → y < (m1.Dy : Int) →
      (m1.ColorIndexAt x y).val &&& 3 = (m2.ColorIndexAt x y).val &&& 3) :
    dumpSprites outfile m1 = dumpSprites outfile m2 := by
  by_cases hc : (m1.Dx / 16) * (m1.Dy / 16) = 64
  · have hc2 : (m2.Dx / 16) * (m2.Dy / 16) = 64 := by rw [← hdx, ← hdy]; exact hc
    have hpos := pos_of_mul_eq hc (by norm_num)
    rw [dumpSprites_ok outfile m1 hc, dumpSprites_ok outfile m2 hc2, dumpSprites_buf_eq m1 hc,
      dumpSprites_buf_eq m2 hc2, ← hdx]
    refine congrArg outfile.Write ?_
    apply List.flatMap_congr
    intro k hk
    have hk' : k < 64 := List.mem_range.mp hk
    exact spriteBlock_congr_grid m1 m2 h _ _ (Nat.mod_lt _ hpos.1)
      (Nat.div_lt_of_lt_mul (by rw [hc]; exact hk'))
  · have hc2 : (m2.Dx / 16) * (m2.Dy / 16) ≠ 64 := by rw [← hdx, ← hdy]; exact hc
    rw [dumpSprites_bad outfile m1 hc, dumpSprites_bad outfile m2 hc2, hdx, hdy]

/-! ## Slices of the output buffers -/

theorem slice_flatMap_const (f : Nat → List Nat) (n : Nat) (hf : ∀ k, (f k).length = n) :
    ∀ (N k : Nat), k < N → byteSlice ((List.range N).flatMap f) (n * k) n = f k := by
  intro N
  induction N with
  | zero => intro k hk; omega
  | succ M ih =>
    intro k hk
    have hlen : ((List.range M).flatMap f).length = M * n := by
      rw [length_flatMap_const f n hf, List.length_range]
    rw [List.range_succ, List.flatMap_append, List.flatMap_singleton]
    unfold byteSlice
    by_cases hlt : k < M
    · have h1 : (k + 1) * n ≤ M * n := Nat.mul_le_mul_right _ hlt
      have h2 : (k + 1) * n = n * k + n := by ring
      rw [List.drop_append_of_le_length (by rw [hlen]; omega),
        List.take_append_of_le_length (by rw [List.length_drop, hlen]; omega)]
      exact ih k hlt
    · have hk' : k = M := by omega
      subst hk'
      have h3 : n * k = ((List.range k).flatMap f).length := by rw [hlen, Nat.mul_comm]
      rw [h3, List.drop_left, ← hf k, List.take_length]

theorem visitsInner_eq (cap chars_w cy : Nat) :
    ∀ (fuel cx n : Nat) (log : List (Nat × Nat)), cx + fuel = chars_w → n + fuel ≤ cap →
      visitsInner cap chars_w cy fuel cx n log =
        (n + fuel, log ++ (List.range' cx fuel).flatMap (fun c => [(c, cy)])) := by
  intro fuel
  induction fuel with
  | zero => intro cx n log _ _; simp [visitsInner]
  | succ k ih =>
    intro cx n log h1 h2
    have hc : cx < chars_w ∧ n < cap := by omega
    rw [visitsInner, if_pos hc]
    simp only []
    rw [ih (cx + 1) (n + 1) _ (by omega) (by omega), List.range'_succ, List.flatMap_cons]
    simp [List.append_assoc]
    omega

theorem visitsOuter_eq (cap chars_w chars_h : Nat) (hw : 0 < chars_w) :
    ∀ (fuel cy n : Nat) (log : List (Nat × Nat)), cy + fuel = chars_h →
      n + fuel * chars_w ≤ cap →
      visitsOuter cap chars_w chars_h fuel cy n log =
        (n + fuel * chars_w,
          log ++ (List.range' cy fuel).flatMap (fun r =>
            (List.range' 0 chars_w).flatMap (fun c => [(c, r)]))) := by
  intro fuel
  induction fuel with
  | zero => intro cy n log _ _; simp [visitsOuter]
  | succ k ih =>
    intro cy n log h1 h2
    have hmul : (k + 1) * chars_w = k * chars_w + chars_w := Nat.succ_mul k chars_w
    have hc : cy < chars_h ∧ n < cap := by omega
    rw [visitsOuter, if_pos hc]
    simp only []
    rw [visitsInner_eq cap chars_w cy chars_w 0 n log (by omega) (by omega)]
    simp only []
    rw [ih (cy + 1) (n + chars_w) _ (by omega) (by omega), List.range'_succ, List.flatMap_cons]
    simp [List.append_assoc]
    omega

theorem foldl_append_flatMap {α β : Type} (g : α → List β) :
    ∀ (l : List α) (init : List β),
      l.foldl (fun acc i => acc ++ g i) init = init ++ l.flatMap g := by
  intro l
  induction l with
  | nil => intro init; simp
  | cons a t ih => intro init; simp [ih, List.append_assoc]

/-- Two plain nested counting loops that append `g cx cy` visit the grid row
by row. -/
theorem nested_foldl_eq {β : Type} (g : Nat → Nat → List β) (w h : Nat) :
    (List.range h).foldl (fun (acc : List β) (cy : Nat) =>
      (List.range w).foldl (fun (acc : List β) (cx : Nat) => acc ++ g cx cy) acc) [] =
      (List.range' 0 h).flatMap (fun r => (List.range' 0 w).flatMap (fun c => g c r)) := by
  have inner : ∀ (cy : Nat) (acc : List β),
      (List.range w).foldl (fun (acc : List β) (cx : Nat) => acc ++ g cx cy) acc =
        acc ++ (List.range w).flatMap (fun c => g c cy) :=
    fun cy acc => foldl_append_flatMap (fun c => g c cy) (List.range w) acc
  simp only [inner]
  rw [foldl_append_flatMap (fun r => (List.range w).flatMap (fun c => g c r)) (List.range h) [],
    List.nil_append, ← List.range_eq_range', ← List.range_eq_range']

theorem visitsNoCap_eq (w h : Nat) :
    visitsNoCap w h =
      (List.range' 0 h).flatMap (fun r => (List.range' 0 w).flatMap (fun c => [(c, r)])) :=
  nested_foldl_eq (fun c r => [(c, r)]) w h

theorem dumpChars_bufNoCap_eq (m : PalettedImage) :
    dumpChars.bufNoCap m =
      (List.range' 0 (m.Dy / 8)).flatMap (fun r =>
        (List.range' 0 (m.Dx / 8)).flatMap (fun c => tileBlock m c r)) := by
  unfold dumpChars.bufNoCap
  simp only [List.append_assoc]
  exact nested_foldl_eq (fun c r => tileBlock m c r) (m.Dx / 8) (m.Dy / 8)

theorem dumpSprites_bufNoCap_eq (m : PalettedImage) :
    dumpSprites.bufNoCap m =
      (List.range' 0 (m.Dy / 16)).flatMap (fun r =>
        (List.range' 0 (m.Dx / 16)).flatMap (fun c => spriteBlock m (c * 16) (r * 16))) := by
  unfold dumpSprites.bufNoCap
  simp only [List.append_assoc]
  have key := nested_foldl_eq (fun c r => spriteBlock m (c * 16) (r * 16)) (m.Dx / 16)
    (m.Dy / 16)
  simp only [spriteBlock, List.append_assoc] at key
  simp only [spriteBlock, List.append_assoc]
  exact key

theorem dumpChars_buf_rows (m : PalettedImage) (h : (m.Dx / 8) * (m.Dy / 8) = 256) :
    dumpChars.buf m =
      (List.range' 0 (m.Dy / 8)).flatMap (fun r =>
        (List.range' 0 (m.Dx / 8)).flatMap (fun c => tileBlock m c r)) := by
  have hpos := pos_of_mul_eq h (by norm_num)
  have h2 : 0 + (m.Dy / 8) * (m.Dx / 8) ≤ 256 := by rw [Nat.mul_comm]; omega
  unfold dumpChars.buf
  simp only []
  rw [outer_chars m (m.Dx / 8) (m.Dy / 8) hpos.1 (m.Dy / 8) 0 0 [] (by omega) h2]
  simp only [List.nil_append]

theorem dumpSprites_buf_rows (m : PalettedImage) (h : (m.Dx / 16) * (m.Dy / 16) = 64) :
    dumpSprites.buf m =
      (List.range' 0 (m.Dy / 16)).flatMap (fun r =>
        (List.range' 0 (m.Dx / 16)).flatMap (fun c => spriteBlock m (c * 16) (r * 16))) := by
  have hpos := pos_of_mul_eq h (by norm_num)
  have h2 : 0 + (m.Dy / 16) * (m.Dx / 16) ≤ 64 := by rw [Nat.mul_comm]; omega
  unfold dumpSprites.buf
  simp only []
  rw [outer_sprites m (m.Dx / 16) (m.Dy / 16) hpos.1 (m.Dy / 16) 0 0 [] (by omega) h2]
  simp only [List.nil_append]

theorem visits_rows (cap w h : Nat) (hcap : w * h = cap) (hc : 0 < cap) :
    (visitsOuter cap w h h 0 0 []).2 =
      (List.range' 0 h).flatMap (fun r => (List.range' 0 w).flatMap (fun c => [(c, r)])) := by
  have hpos := pos_of_mul_eq hcap hc
  have h2 : 0 + h * w ≤ cap := by rw [Nat.mul_comm]; omega
  rw [visitsOuter_eq cap w h hpos.1 h 0 0 [] (by omega) h2]
  simp only [List.nil_append]

theorem rows_raster (w h : Nat) (hw : 0 < w) :
    (List.range' 0 h).flatMap (fun r => (List.range' 0 w).flatMap (fun c => [(c, r)])) =
      (List.range (w * h)).map (fun k => (k % w, k / w)) := by
  rw [flatMap_raster (fun c r => [(c, r)]) w hw h, Nat.mul_comm h w, List.map_eq_flatMap]

theorem rows_flatMap {β : Type} (g : Nat × Nat → List β) (w h : Nat) :
    ((List.range' 0 h).flatMap (fun r =>
        (List.range' 0 w).flatMap (fun c => [(c, r)]))).flatMap g =
      (List.range' 0 h).flatMap (fun r => (List.range' 0 w).flatMap (fun c => g (c, r))) := by
  rw [List.flatMap_assoc]
  apply List.flatMap_congr
  intro r _
  rw [List.flatMap_assoc]
  apply List.flatMap_congr
  intro c _
  rw [List.flatMap_singleton]

/-! ## Decoding the tile-mode buffer -/

theorem column_bits (m : PalettedImage) (x y : Int) (col row : Nat) (hrow : row < 4) :
    (encode_8x4.column m x y col).testBit row =
        (m.ColorIndexAt (x - (col : Int)) (y - (row : Int))).val.testBit 0 ∧
    (encode_8x4.column m x y col).testBit (4 + row) =
        (m.ColorIndexAt (x - (col : Int)) (y - (row : Int))).val.testBit 1 := by
  rw [column_testBit, column_testBit]
  interval_cases row <;> simp

set_option maxRecDepth 100000 in
theorem low_bits_value : ∀ p : Fin 256,
    (if p.val.testBit 0 then 1 else 0) + (if p.val.testBit 1 then 2 else 0) = p.val &&& 3 := by
  decide

/-- The byte that holds the pixel `(px, py)`, and the two bits of the pixel in
it. -/
theorem pixel_bits (m : PalettedImage) (px py : Nat)
    (h : (m.Dx / 8) * (m.Dy / 8) = 256)
    (hpx : px < 8 * (m.Dx / 8)) (hpy : py < 8 * (m.Dy / 8)) :
    ((dumpChars.buf m).getD
        (16 * ((py / 8) * (m.Dx / 8) + px / 8) + (if 4 ≤ py % 8 then 0 else 8)
          + (7 - px % 8)) 0).testBit (3 - py % 4) =
      (m.ColorIndexAt (px : Int) (py : Int)).val.testBit 0 ∧
    ((dumpChars.buf m).getD
        (16 * ((py / 8) * (m.Dx / 8) + px / 8) + (if 4 ≤ py % 8 then 0 else 8)
          + (7 - px % 8)) 0).testBit (4 + (3 - py % 4)) =
      (m.ColorIndexAt (px : Int) (py : Int)).val.testBit 1 := by
  have hcx : px / 8 < m.Dx / 8 := by omega
  have hcy : py / 8 < m.Dy / 8 := by omega
  have key : ∀ (a b : Int) (k : Nat), a = (px : Int) → b = (py : Int) →
      (m.ColorIndexAt a b).val.testBit k =
        (m.ColorIndexAt (px : Int) (py : Int)).val.testBit k := by
    intro a b k ha hb
    rw [ha, hb]
  by_cases hb : 4 ≤ py % 8
  · have hidx : 16 * ((py / 8) * (m.Dx / 8) + px / 8) + (if 4 ≤ py % 8 then 0 else 8)
          + (7 - px % 8) = 16 * ((py / 8) * (m.Dx / 8) + px / 8) + (7 - px % 8) := by
      rw [if_pos hb, Nat.add_zero]
    have hj8 : 7 - px % 8 < 8 := by omega
    rw [hidx, dumpChars_byte_at m h (px / 8) (py / 8) (7 - px % 8) hcx hcy (by omega)]
    simp only [if_pos hj8]
    have cb := column_bits m ((px / 8 * 8 + 7 : Nat) : Int) ((py / 8 * 8 + 7 : Nat) : Int)
      ((7 - px % 8) % 8) (3 - py % 4) (by omega)
    rw [cb.1, cb.2]
    exact ⟨key _ _ 0 (by omega) (by omega), key _ _ 1 (by omega) (by omega)⟩
  · have hidx : 16 * ((py / 8) * (m.Dx / 8) + px / 8) + (if 4 ≤ py % 8 then 0 else 8)
          + (7 - px % 8) = 16 * ((py / 8) * (m.Dx / 8) + px / 8) + (8 + (7 - px % 8)) := by
      rw [if_neg hb]; omega
    have hj8 : ¬ (8 + (7 - px % 8) < 8) := by omega
    rw [hidx, dumpChars_byte_at m h (px / 8) (py / 8) (8 + (7 - px % 8)) hcx hcy (by omega)]
    simp only [if_neg hj8]
    have cb := column_bits m ((px / 8 * 8 + 7 : Nat) : Int) ((py / 8 * 8 + 3 : Nat) : Int)
      ((8 + (7 - px % 8)) % 8) (3 - py % 4) (by omega)
    rw [cb.1, cb.2]
    exact ⟨key _ _ 0 (by omega) (by omega), key _ _ 1 (by omega) (by omega)⟩

/-- The decoder recovers the low two bits of every pixel of the tiled area. -/
theorem decodePixel_correct (m : PalettedImage) (px py : Nat)
    (h : (m.Dx / 8) * (m.Dy / 8) = 256)
    (hpx : px < 8 * (m.Dx / 8)) (hpy : py < 8 * (m.Dy / 8)) :
    decodePixel (dumpChars.buf m) (m.Dx / 8) px py =
      (m.ColorIndexAt (px : Int) (py : Int)).val &&& 3 := by
  have hb := pixel_bits m px py h hpx hpy
  unfold decodePixel
  simp only []
  rw [hb.1, hb.2]
  exact low_bits_value _

/-- Every pixel of the tiled area is read. -/
theorem mem_dumpChars_reads (m : PalettedImage) (h : (m.Dx / 8) * (m.Dy / 8) = 256)
    (px py : Nat) (hpx : px < 8 * (m.Dx / 8)) (hpy : py < 8 * (m.Dy / 8)) :
    ((px : Int), (py : Int)) ∈ dumpChars.reads m := by
  rw [dumpChars_reads_eq m h, List.mem_flatMap]
  refine ⟨py / 8, List.mem_range'_1.mpr (by omega), ?_⟩
  rw [List.mem_flatMap]
  refine ⟨px / 8, List.mem_range'_1.mpr (by omega), ?_⟩
  rw [tileReads, List.mem_append]
  by_cases hb : 4 ≤ py % 8
  · left
    have e : ((px : Int), (py : Int)) =
        (((px / 8 * 8 + 7 : Nat) : Int) - ((7 - px % 8 : Nat) : Int),
          ((py / 8 * 8 + 7 : Nat) : Int) - ((7 - py % 8 : Nat) : Int)) := by
      apply Prod.ext <;> simp only [] <;> omega
    rw [e]
    exact reads_mem _ _ _ _ (by omega) (by omega)
  · right
    have e : ((px : Int), (py : Int)) =
        (((px / 8 * 8 + 7 : Nat) : Int) - ((7 - px % 8 : Nat) : Int),
          ((py / 8 * 8 + 3 : Nat) : Int) - ((3 - py % 8 : Nat) : Int)) := by
      apply Prod.ext <;> simp only [] <;> omega
    rw [e]
    exact reads_mem _ _ _ _ (by omega) (by omega)

/-- No coordinate is read twice. -/
theorem dumpChars_reads_nodup (m : PalettedImage) (h : (m.Dx / 8) * (m.Dy / 8) = 256) :
    (dumpChars.reads m).Nodup := by
  have hinj : Function.Injective (fun p : Nat × Nat => ((p.1 : Int), (p.2 : Int))) := by
    intro p q hpq
    simp only [Prod.mk.injEq, Nat.cast_inj] at hpq
    exact Prod.ext hpq.1 hpq.2
  have hcard : ((Finset.range (8 * (m.Dx / 8)) ×ˢ Finset.range (8 * (m.Dy / 8))).image
      (fun p : Nat × Nat => ((p.1 : Int), (p.2 : Int)))).card = 16384 := by
    rw [Finset.card_image_of_injective _ hinj, Finset.card_product, Finset.card_range,
      Finset.card_range]
    have e : 8 * (m.Dx / 8) * (8 * (m.Dy / 8)) = 64 * ((m.Dx / 8) * (m.Dy / 8)) := by ring
    rw [e, h]
  have hsub : (Finset.range (8 * (m.Dx / 8)) ×ˢ Finset.range (8 * (m.Dy / 8))).image
      (fun p : Nat × Nat => ((p.1 : Int), (p.2 : Int))) ⊆ (dumpChars.reads m).toFinset := by
    intro q hq
    obtain ⟨p, hp, rfl⟩ := Finset.mem_image.mp hq
    rw [Finset.mem_product, Finset.mem_range, Finset.mem_range] at hp
    exact List.mem_toFinset.mpr (mem_dumpChars_reads m h p.1 p.2 hp.1 hp.2)
  have h1 := Finset.card_le_card hsub
  have h2 := List.toFinset_card_le (dumpChars.reads m)
  have h3 := dumpChars_reads_length m h
  rw [hcard] at h1
  have h4 : (dumpChars.reads m).toFinset.card = (dumpChars.reads m).length := by omega
  exact Multiset.coe_nodup.mp (Multiset.toFinset_card_eq_card_iff_nodup.mp h4)

theorem write_calls_inj (outfile : Writer) (b1 b2 : List Nat)
    (h : (outfile.Write b1).1.calls = (outfile.Write b2).1.calls) : b1 = b2 := by
  simp only [Writer.Write] at h
  have h' := List.append_cancel_left h
  exact List.cons.inj h' |>.1

/-! ## Sprite mode as a re-ordering of tile mode -/

theorem div_mod_unique (w q r q' r' : Nat) (hr : r < w) (hr' : r' < w)
    (h : q * w + r = q' * w + r') : q = q' ∧ r = r' := by
  have hw : 0 < w := by omega
  have e1 : (q * w + r) / w = q := by
    rw [Nat.mul_comm, Nat.mul_add_div hw, Nat.div_eq_of_lt hr, Nat.add_zero]
  have e2 : (q' * w + r') / w = q' := by
    rw [Nat.mul_comm, Nat.mul_add_div hw, Nat.div_eq_of_lt hr', Nat.add_zero]
  have hq : q = q' := by rw [← e1, ← e2, h]
  subst hq
  exact ⟨rfl, by omega⟩

theorem spriteBlock_chunks (m : PalettedImage) (x0 y0 : Nat) :
    spriteBlock m x0 y0 =
      (List.range' 0 8).flatMap (fun c =>
        encode_8x4 m ((x0 + spriteChunkDx c : Nat) : Int)
          ((y0 + spriteChunkDy c : Nat) : Int)) := by
  have e8 : List.range' 0 8 = [0, 1, 2, 3, 4, 5, 6, 7] := rfl
  rw [e8]
  simp [spriteBlock, spriteChunkDx, spriteChunkDy, List.append_assoc]

theorem tileBlock_chunks (m : PalettedImage) (cx cy : Nat) :
    tileBlock m cx cy =
      (List.range' 0 2).flatMap (fun band =>
        encode_8x4 m ((cx * 8 + 7 : Nat) : Int)
          ((cy * 8 + (if band % 2 = 0 then 7 else 3) : Nat) : Int)) := by
  have e2 : List.range' 0 2 = [0, 1] := rfl
  rw [e2]
  simp [tileBlock]

/-- The sprite-mode buffer as 512 chunks of 8 bytes. -/
theorem dumpSprites_buf_chunks (m : PalettedImage) (h : (m.Dx / 16) * (m.Dy / 16) = 64) :
    dumpSprites.buf m =
      (List.range 512).flatMap (fun n =>
        encode_8x4 m ((16 * ((n / 8) % (m.Dx / 16)) + spriteChunkDx (n % 8) : Nat) : Int)
          ((16 * ((n / 8) / (m.Dx / 16)) + spriteChunkDy (n % 8) : Nat) : Int)) := by
  have key := flatMap_raster (fun c r =>
    encode_8x4 m ((16 * (r % (m.Dx / 16)) + spriteChunkDx c : Nat) : Int)
      ((16 * (r / (m.Dx / 16)) + spriteChunkDy c : Nat) : Int)) 8 (by norm_num) 64
  rw [dumpSprites_buf_eq m h, List.range_eq_range' 64]
  simp only [spriteBlock_chunks]
  exact key

/-- The tile-mode buffer as 512 chunks of 8 bytes. -/
theorem dumpChars_buf_chunks (m : PalettedImage) (h : (m.Dx / 8) * (m.Dy / 8) = 256) :
    dumpChars.buf m =
      (List.range 512).flatMap (fun n =>
        encode_8x4 m ((((n / 2) % (m.Dx / 8)) * 8 + 7 : Nat) : Int)
          ((((n / 2) / (m.Dx / 8)) * 8 + (if n % 2 = 0 then 7 else 3) : Nat) : Int)) := by
  have key := flatMap_raster (fun band k =>
    encode_8x4 m (((k % (m.Dx / 8)) * 8 + 7 : Nat) : Int)
      (((k / (m.Dx / 8)) * 8 + (if band % 2 = 0 then 7 else 3) : Nat) : Int)) 2 (by norm_num) 256
  simp only [Nat.mod_mod] at key
  rw [dumpChars_buf_eq m h, List.range_eq_range' 256]
  simp only [tileBlock_chunks]
  exact key

theorem sprite_chunk (m : PalettedImage) (h : (m.Dx / 16) * (m.Dy / 16) = 64)
    (n : Nat) (hn : n < 512) :
    byteSlice (dumpSprites.buf m) (8 * n) 8 =
      encode_8x4 m ((16 * ((n / 8) % (m.Dx / 16)) + spriteChunkDx (n % 8) : Nat) : Int)
        ((16 * ((n / 8) / (m.Dx / 16)) + spriteChunkDy (n % 8) : Nat) : Int) := by
  rw [dumpSprites_buf_chunks m h]
  exact slice_flatMap_const _ 8 (fun k => encode_8x4_length m _ _) 512 n hn

theorem tile_chunk (m : PalettedImage) (h : (m.Dx / 8) * (m.Dy / 8) = 256)
    (n : Nat) (hn : n < 512) :
    byteSlice (dumpChars.buf m) (8 * n) 8 =
      encode_8x4 m ((((n / 2) % (m.Dx / 8)) * 8 + 7 : Nat) : Int)
        ((((n / 2) / (m.Dx / 8)) * 8 + (if n % 2 = 0 then 7 else 3) : Nat) : Int) := by
  rw [dumpChars_buf_chunks m h]
  exact slice_flatMap_const _ 8 (fun k => encode_8x4_length m _ _) 512 n hn

theorem spriteChunkDx_cases (c : Nat) : spriteChunkDx c = 15 ∨ spriteChunkDx c = 7 := by
  unfold spriteChunkDx
  split_ifs
  · exact Or.inl rfl
  · exact Or.inr rfl

theorem spriteChunkDy_cases (c : Nat) :
    spriteChunkDy c = 15 ∨ spriteChunkDy c = 3 ∨ spriteChunkDy c = 7 ∨
      spriteChunkDy c = 11 := by
  unfold spriteChunkDy
  split_ifs
  · exact Or.inl rfl
  · exact Or.inr (Or.inl rfl)
  · exact Or.inr (Or.inr (Or.inl rfl))
  · exact Or.inr (Or.inr (Or.inr rfl))

/-- The tile, and the band in it, that `tileChunkOf` selects. -/
theorem tileChunkOf_parts (a n : Nat) (ha : 0 < a) :
    (tileChunkOf a n) % 2 =
      (if spriteChunkDy (n % 8) = 7 ∨ spriteChunkDy (n % 8) = 15 then 0 else 1) ∧
    ((tileChunkOf a n) / 2) % (2 * a) =
      2 * ((n / 8) % a) + (if spriteChunkDx (n % 8) = 15 then 1 else 0) ∧
    ((tileChunkOf a n) / 2) / (2 * a) =
      2 * ((n / 8) / a) + (if 8 ≤ spriteChunkDy (n % 8) then 1 else 0) := by
  have hsx : (n / 8) % a < a := Nat.mod_lt _ ha
  have hbd : (if spriteChunkDy (n % 8) = 7 ∨ spriteChunkDy (n % 8) = 15 then 0 else 1) ≤ 1 := by
    split_ifs <;> omega
  have hhx : (if spriteChunkDx (n % 8) = 15 then 1 else 0) ≤ 1 := by
    split_ifs <;> omega
  unfold tileChunkOf
  simp only []
  generalize (if spriteChunkDy (n % 8) = 7 ∨ spriteChunkDy (n % 8) = 15 then 0 else 1) = bd
    at hbd ⊢
  generalize (if spriteChunkDx (n % 8) = 15 then 1 else 0) = hx at hhx ⊢
  generalize (2 * ((n / 8) / a) + (if 8 ≤ spriteChunkDy (n % 8) then 1 else 0)) = cy
  generalize (n / 8) % a = sx at hsx ⊢
  have hcx : 2 * sx + hx < 2 * a := by omega
  have hdiv : (2 * (cy * (2 * a) + (2 * sx + hx)) + bd) / 2 = cy * (2 * a) + (2 * sx + hx) := by
    omega
  have hmod : (2 * (cy * (2 * a) + (2 * sx + hx)) + bd) % 2 = bd := by omega
  have e1 : (cy * (2 * a) + (2 * sx + hx)) % (2 * a) = 2 * sx + hx := by
    rw [Nat.mul_comm, Nat.mul_add_mod]; exact Nat.mod_eq_of_lt hcx
  have e2 : (cy * (2 * a) + (2 * sx + hx)) / (2 * a) = cy := by
    rw [Nat.mul_comm, Nat.mul_add_div (by omega), Nat.div_eq_of_lt hcx, Nat.add_zero]
  rw [hdiv, hmod, e1, e2]
  exact ⟨rfl, rfl, rfl⟩

theorem tileChunkOf_lt (a b n : Nat) (hab : a * b = 64) (hn : n < 512) :
    tileChunkOf a n < 512 := by
  have hpos := pos_of_mul_eq hab (by norm_num)
  have hsx : (n / 8) % a < a := Nat.mod_lt _ hpos.1
  have hsy : (n / 8) / a < b := Nat.div_lt_of_lt_mul (by rw [hab]; omega)
  have hhy : (if 8 ≤ spriteChunkDy (n % 8) then 1 else 0) ≤ 1 := by
    split_ifs <;> omega
  have hbd : (if spriteChunkDy (n % 8) = 7 ∨ spriteChunkDy (n % 8) = 15 then 0 else 1) ≤ 1 := by
    split_ifs <;> omega
  have hhx : (if spriteChunkDx (n % 8) = 15 then 1 else 0) ≤ 1 := by
    split_ifs <;> omega
  unfold tileChunkOf
  simp only []
  generalize (if spriteChunkDy (n % 8) = 7 ∨ spriteChunkDy (n % 8) = 15 then 0 else 1) = bd
    at hbd ⊢
  generalize (if spriteChunkDx (n % 8) = 15 then 1 else 0) = hx at hhx ⊢
  generalize (if 8 ≤ spriteChunkDy (n % 8) then 1 else 0) = hy at hhy ⊢
  generalize (n / 8) % a = sx at hsx ⊢
  generalize (n / 8) / a = sy at hsy ⊢
  have h1 : (2 * sy + hy + 1) * (2 * a) ≤ (2 * b) * (2 * a) :=
    Nat.mul_le_mul_right _ (by omega)
  have h2 : (2 * sy + hy + 1) * (2 * a) = (2 * sy + hy) * (2 * a) + 2 * a := Nat.succ_mul _ _
  have h3 : (2 * b) * (2 * a) = 4 * (a * b) := by ring
  rw [hab] at h3
  omega

/-- The reference point of sprite-mode chunk `n` is the reference point of
tile-mode chunk `tileChunkOf a n`. -/
theorem tileChunkOf_ref (a n : Nat) (ha : 0 < a) :
    (((tileChunkOf a n) / 2) % (2 * a)) * 8 + 7 =
      16 * ((n / 8) % a) + spriteChunkDx (n % 8) ∧
    (((tileChunkOf a n) / 2) / (2 * a)) * 8 + (if (tileChunkOf a n) % 2 = 0 then 7 else 3) =
      16 * ((n / 8) / a) + spriteChunkDy (n % 8) := by
  obtain ⟨p1, p2, p3⟩ := tileChunkOf_parts a n ha
  rw [p1, p2, p3]
  constructor
  · rcases spriteChunkDx_cases (n % 8) with e | e <;> rw [e] <;> simp <;> omega
  · rcases spriteChunkDy_cases (n % 8) with e | e | e | e <;> rw [e] <;> simp <;> omega

theorem chunk_offsets_inj : ∀ c d : Fin 8,
    spriteChunkDx c.val = spriteChunkDx d.val → spriteChunkDy c.val = spriteChunkDy d.val →
      c = d := by
  decide

theorem tileChunkOf_inj (a n n' : Nat) (ha : 0 < a)
    (h : tileChunkOf a n = tileChunkOf a n') : n = n' := by
  have r := tileChunkOf_ref a n ha
  have r' := tileChunkOf_ref a n' ha
  rw [h] at r
  have ex := r.1.symm.trans r'.1
  have ey := r.2.symm.trans r'.2
  have cx := spriteChunkDx_cases (n % 8)
  have cx' := spriteChunkDx_cases (n' % 8)
  have cy := spriteChunkDy_cases (n % 8)
  have cy' := spriteChunkDy_cases (n' % 8)
  have hdx : spriteChunkDx (n % 8) = spriteChunkDx (n' % 8) := by omega
  have hdy : spriteChunkDy (n % 8) = spriteChunkDy (n' % 8) := by omega
  have hsx : (n / 8) % a = (n' / 8) % a := by omega
  have hsy : (n / 8) / a = (n' / 8) / a := by omega
  have hc := chunk_offsets_inj ⟨n % 8, Nat.mod_lt _ (by norm_num)⟩
    ⟨n' % 8, Nat.mod_lt _ (by norm_num)⟩ hdx hdy
  have hc' : n % 8 = n' % 8 := congrArg Fin.val hc
  have d := Nat.div_add_mod (n / 8) a
  have d' := Nat.div_add_mod (n' / 8) a
  rw [hsx, hsy] at d
  have hs : n / 8 = n' / 8 := d.symm.trans d'
  omega

/-- The chunk numbers of tile mode, re-ordered by `tileChunkOf`, are again all
the chunk numbers. -/
theorem tileChunkOf_perm (a b : Nat) (hab : a * b = 64) :
    List.Perm ((List.range 512).map (tileChunkOf a)) (List.range 512) := by
  have hpos := pos_of_mul_eq hab (by norm_num)
  have hnd : ((List.range 512).map (tileChunkOf a)).Nodup :=
    List.Nodup.map_on (fun x _ y _ hxy => tileChunkOf_inj a x y hpos.1 hxy)
      (List.nodup_range 512)
  have hsub : (List.range 512).map (tileChunkOf a) ⊆ List.range 512 := by
    intro t ht
    obtain ⟨n, hn, rfl⟩ := List.mem_map.mp ht
    exact List.mem_range.mpr (tileChunkOf_lt a b n hab (List.mem_range.mp hn))
  exact (List.subperm_of_subset hnd hsub).perm_of_length_le (by simp)

theorem grid_counts (m : PalettedImage) (a b : Nat) (hw : m.Dx = 16 * a) (hh : m.Dy = 16 * b)
    (hab : a * b = 64) :
    m.Dx / 16 = a ∧ m.Dx / 8 = 2 * a ∧ (m.Dx / 16) * (m.Dy / 16) = 64 ∧
      (m.Dx / 8) * (m.Dy / 8) = 256 := by
  have e1 : m.Dx / 16 = a := by omega
  have e2 : m.Dy / 16 = b := by omega
  have e3 : m.Dx / 8 = 2 * a := by omega
  have e4 : m.Dy / 8 = 2 * b := by omega
  have e5 : (2 * a) * (2 * b) = 4 * (a * b) := by ring
  refine ⟨e1, e3, ?_, ?_⟩
  · rw [e1, e2, hab]
  · rw [e3, e4, e5, hab]

/-- Sprite-mode chunk `n` is tile-mode chunk `tileChunkOf a n`. -/
theorem chunk_correspondence (m : PalettedImage) (a b : Nat) (hw : m.Dx = 16 * a)
    (hh : m.Dy = 16 * b) (hab : a * b = 64) (n : Nat) (hn : n < 512) :
    byteSlice (dumpSprites.buf m) (8 * n) 8 =
      byteSlice (dumpChars.buf m) (8 * tileChunkOf a n) 8 := by
  have hpos := pos_of_mul_eq hab (by norm_num)
  obtain ⟨e16, e8, hs, ht⟩ := grid_counts m a b hw hh hab
  obtain ⟨r1, r2⟩ := tileChunkOf_ref a n hpos.1
  rw [sprite_chunk m hs n hn, tile_chunk m ht (tileChunkOf a n) (tileChunkOf_lt a b n hab hn),
    e16, e8, r1, r2]

/-! ## Theorems -/

/-- C1: `encode_8x4` returns exactly 8 bytes; in byte number `col`, bit `row`
is bit 0 of the pixel at `(x - col, y - row)` and bit `4 + row` is bit 1 of
that pixel, for every `col < 8` and `row < 4`; every byte is below 256, so
these eight bits are the whole byte. -/
theorem encode_8x4_bit_layout (m : PalettedImage) (x y : Int) :
    (encode_8x4 m x y).length = 8 ∧
    ∀ (col : Fin 8) (row : Fin 4),
      ((encode_8x4 m x y).getD col.val 0).testBit row.val
          = (m.ColorIndexAt (x - col.val) (y - row.val)).val.testBit 0 ∧
      ((encode_8x4 m x y).getD col.val 0).testBit (4 + row.val)
          = (m.ColorIndexAt (x - col.val) (y - row.val)).val.testBit 1 ∧
      (encode_8x4 m x y).getD col.val 0 < 256 := by
  refine ⟨encode_8x4_length m x y, ?_⟩
  intro col row
  rw [encode_8x4_getD m x y col.val col.isLt, column_testBit, column_testBit]
  refine ⟨?_, ?_, column_lt m x y col.val⟩
  · fin_cases row <;> simp
  · fin_cases row <;> simp

/-- C2: when the size check of tile mode passes, the buffer handed to the sink
is the concatenation, for `k = 0 .. 255` in that order, of the block of the tile
at `(cx, cy) = (k mod cw, k div cw)` with `cw = width / 8`; the block is
`encode_8x4 (cx*8+7) (cy*8+7)` followed by `encode_8x4 (cx*8+7) (cy*8+3)`. -/
theorem dumpChars_raster_output (outfile : Writer) (m : PalettedImage)
    (h : (m.Dx / 8) * (m.Dy / 8) = 256) :
    dumpChars outfile m = outfile.Write
      ((List.range 256).flatMap (fun k =>
        encode_8x4 m (((k % (m.Dx / 8)) * 8 + 7 : Nat) : Int)
            (((k / (m.Dx / 8)) * 8 + 7 : Nat) : Int) ++
        encode_8x4 m (((k % (m.Dx / 8)) * 8 + 7 : Nat) : Int)
            (((k / (m.Dx / 8)) * 8 + 3 : Nat) : Int))) := by
  rw [dumpChars_ok outfile m h, dumpChars_buf_eq m h]
  rfl

theorem dumpChars_raster_output_witness :
    ((blankImage 128 128).Dx / 8) * ((blankImage 128 128).Dy / 8) = 256 ∧
    dumpChars nullSink (blankImage 128 128) = nullSink.Write
      ((List.range 256).flatMap (fun k =>
        encode_8x4 (blankImage 128 128) (((k % ((blankImage 128 128).Dx / 8)) * 8 + 7 : Nat) : Int)
            (((k / ((blankImage 128 128).Dx / 8)) * 8 + 7 : Nat) : Int) ++
        encode_8x4 (blankImage 128 128) (((k % ((blankImage 128 128).Dx / 8)) * 8 + 7 : Nat) : Int)
            (((k / ((blankImage 128 128).Dx / 8)) * 8 + 3 : Nat) : Int))) :=
  ⟨by decide, dumpChars_raster_output nullSink (blankImage 128 128) (by decide)⟩

/-- C3: when the size check of sprite mode passes, the buffer handed to the
sink is the concatenation, for `s = 0 .. 63` in that order, with sprite origin
`(x0, y0) = (16 * (s mod sw), 16 * (s div sw))` and `sw = width / 16`, of the
eight `encode_8x4` chunks at `(x0+15,y0+15)`, `(x0+15,y0+3)`, `(x0+15,y0+7)`,
`(x0+15,y0+11)`, `(x0+7,y0+15)`, `(x0+7,y0+3)`, `(x0+7,y0+7)`, `(x0+7,y0+11)`. -/
theorem dumpSprites_raster_output (outfile : Writer) (m : PalettedImage)
    (h : (m.Dx / 16) * (m.Dy / 16) = 64) :
    dumpSprites outfile m = outfile.Write
      ((List.range 64).flatMap (fun s =>
        encode_8x4 m ((16 * (s % (m.Dx / 16)) + 15 : Nat) : Int)
            ((16 * (s / (m.Dx / 16)) + 15 : Nat) : Int) ++
        encode_8x4 m ((16 * (s % (m.Dx / 16)) + 15 : Nat) : Int)
            ((16 * (s / (m.Dx / 16)) + 3 : Nat) : Int) ++
        encode_8x4 m ((16 * (s % (m.Dx / 16)) + 15 : Nat) : Int)
            ((16 * (s / (m.Dx / 16)) + 7 : Nat) : Int) ++
        encode_8x4 m ((16 * (s % (m.Dx / 16)) + 15 : Nat) : Int)
            ((16 * (s / (m.Dx / 16)) + 11 : Nat) : Int) ++
        encode_8x4 m ((16 * (s % (m.Dx / 16)) + 7 : Nat) : Int)
            ((16 * (s / (m.Dx / 16)) + 15 : Nat) : Int) ++
        encode_8x4 m ((16 * (s % (m.Dx / 16)) + 7 : Nat) : Int)
            ((16 * (s / (m.Dx / 16)) + 3 : Nat) : Int) ++
        encode_8x4 m ((16 * (s % (m.Dx / 16)) + 7 : Nat) : Int)
            ((16 * (s / (m.Dx / 16)) + 7 : Nat) : Int) ++
        encode_8x4 m ((16 * (s % (m.Dx / 16)) + 7 : Nat) : Int)
            ((16 * (s / (m.Dx / 16)) + 11 : Nat) : Int))) := by
  rw [dumpSprites_ok outfile m h, dumpSprites_buf_eq m h]
  rfl

theorem dumpSprites_raster_output_witness :
    ((blankImage 128 128).Dx / 16) * ((blankImage 128 128).Dy / 16) = 64 ∧
    dumpSprites nullSink (blankImage 128 128) = nullSink.Write
      ((List.range 64).flatMap (fun s =>
        encode_8x4 (blankImage 128 128) ((16 * (s % ((blankImage 128 128).Dx / 16)) + 15 : Nat) : Int)
            ((16 * (s / ((blankImage 128 128).Dx / 16)) + 15 : Nat) : Int) ++
        encode_8x4 (blankImage 128 128) ((16 * (s % ((blankImage 128 128).Dx / 16)) + 15 : Nat) : Int)
            ((16 * (s / ((blankImage 128 128).Dx / 16)) + 3 : Nat) : Int) ++
        encode_8x4 (blankImage 128 128) ((16 * (s % ((blankImage 128 128).Dx / 16)) + 15 : Nat) : Int)
            ((16 * (s / ((blankImage 128 128).Dx / 16)) + 7 : Nat) : Int) ++
        encode_8x4 (blankImage 128 128) ((16 * (s % ((blankImage 128 128).Dx / 16)) + 15 : Nat) : Int)
            ((16 * (s / ((blankImage 128 128).Dx / 16)) + 11 : Nat) : Int) ++
        encode_8x4 (blankImage 128 128) ((16 * (s % ((blankImage 128 128).Dx / 16)) + 7 : Nat) : Int)
            ((16 * (s / ((blankImage 128 128).Dx / 16)) + 15 : Nat) : Int) ++
        encode_8x4 (blankImage 128 128) ((16 * (s % ((blankImage 128 128).Dx / 16)) + 7 : Nat) : Int)
            ((16 * (s / ((blankImage 128 128).Dx / 16)) + 3 : Nat) : Int) ++
        encode_8x4 (blankImage 128 128) ((16 * (s % ((blankImage 128 128).Dx / 16)) + 7 : Nat) : Int)
            ((16 * (s / ((blankImage 128 128).Dx / 16)) + 7 : Nat) : Int) ++
        encode_8x4 (blankImage 128 128) ((16 * (s % ((blankImage 128 128).Dx / 16)) + 7 : Nat) : Int)
            ((16 * (s / ((blankImage 128 128).Dx / 16)) + 11 : Nat) : Int))) :=
  ⟨by decide, dumpSprites_raster_output nullSink (blankImage 128 128) (by decide)⟩

/-- C4, the code at a palette it can receive: for the 32-entry palette of a
PNG with a one-byte tRNS chunk, whose entry 0 is a `color.NRGBA`, the size
check of `dumpPalette` passes and the type assertion `pal[0].(color.RGBA)`
(main.go:84) panics. No byte is written: the sink is as it was. -/
theorem dumpPalette_panics_on_transparent_entry :
    transparentPaletteImage.Palette.length = 32 ∧
    dumpPalette transparentPaletteImage nullSink = Outcome.panicked nullSink :=
  ⟨by decide,
   dumpPalette_panics transparentPaletteImage nullSink 0 { R := 255, G := 128, B := 64, A := 0 }
     (by decide) (by decide) rfl⟩

/-- C5 (as the code has it): tile mode accepts a grid exactly when the tile
count `(width / 8) * (height / 8)`, with the integer divisions discarding any
remainder, is 256; it then hands its buffer to the sink. For every other grid
it fails with the size-mismatch error, which reports that count, and leaves
the sink untouched. Width and height need not be multiples of 8. -/
theorem dumpChars_size_check (outfile : Writer) (m : PalettedImage) :
    ((m.Dx / 8) * (m.Dy / 8) = 256 →
      dumpChars outfile m = outfile.Write (dumpChars.buf m)) ∧
    ((m.Dx / 8) * (m.Dy / 8) ≠ 256 →
      dumpChars outfile m =
        (outfile, some (Error.Errorf "bad size - expected 256 8x8 characters, got %d"
          ((m.Dx / 8) * (m.Dy / 8))))) :=
  ⟨dumpChars_ok outfile m, dumpChars_bad outfile m⟩

theorem dumpChars_size_check_witness :
    dumpChars nullSink (blankImage 128 128) = nullSink.Write (dumpChars.buf (blankImage 128 128)) ∧
    dumpChars nullSink (blankImage 120 136) =
      (nullSink, some (Error.Errorf "bad size - expected 256 8x8 characters, got %d" 255)) :=
  ⟨(dumpChars_size_check nullSink (blankImage 128 128)).1 (by decide),
   (dumpChars_size_check nullSink (blankImage 120 136)).2 (by decide)⟩

/-- C5, counterexample: a 129 by 128 grid, whose width is not a multiple of 8,
is accepted by tile mode: no error is returned and one buffer of 4096 bytes
reaches the sink. -/
theorem dumpChars_accepts_129x128 :
    ¬ (8 ∣ (blankImage 129 128).Dx) ∧
    (dumpChars nullSink (blankImage 129 128)).2 = none ∧
    (dumpChars nullSink (blankImage 129 128)).1.calls = [dumpChars.buf (blankImage 129 128)] ∧
    (dumpChars.buf (blankImage 129 128)).length = 4096 := by
  have h : ((blankImage 129 128).Dx / 8) * ((blankImage 129 128).Dy / 8) = 256 := by decide
  rw [dumpChars_ok nullSink (blankImage 129 128) h]
  exact ⟨by decide, rfl, rfl, dumpChars_buf_length (blankImage 129 128) h⟩

/-- C6: a grid with exactly 256 tiles (`(width / 8) * (height / 8) = 256`)
makes tile mode hand exactly 4096 bytes to the sink, in one write; a grid with
255 or 257 tiles fails with the size-mismatch error. -/
theorem dumpChars_size_invariant (outfile : Writer) (m : PalettedImage) :
    ((m.Dx / 8) * (m.Dy / 8) = 256 →
      dumpChars outfile m = outfile.Write (dumpChars.buf m) ∧
      (dumpChars outfile m).1.calls = outfile.calls ++ [dumpChars.buf m] ∧
      (dumpChars.buf m).length = 4096) ∧
    ((m.Dx / 8) * (m.Dy / 8) = 255 ∨ (m.Dx / 8) * (m.Dy / 8) = 257 →
      dumpChars outfile m =
        (outfile, some (Error.Errorf "bad size - expected 256 8x8 characters, got %d"
          ((m.Dx / 8) * (m.Dy / 8))))) := by
  constructor
  · intro h
    refine ⟨dumpChars_ok outfile m h, ?_, dumpChars_buf_length m h⟩
    rw [dumpChars_ok outfile m h]
    rfl
  · intro h
    exact dumpChars_bad outfile m (by omega)

theorem dumpChars_size_invariant_witness :
    (dumpChars.buf (blankImage 128 128)).length = 4096 ∧
    dumpChars nullSink (blankImage 120 136) =
      (nullSink, some (Error.Errorf "bad size - expected 256 8x8 characters, got %d" 255)) ∧
    dumpChars nullSink (blankImage 8 2056) =
      (nullSink, some (Error.Errorf "bad size - expected 256 8x8 characters, got %d" 257)) :=
  ⟨((dumpChars_size_invariant nullSink (blankImage 128 128)).1 (by decide)).2.2,
   (dumpChars_size_invariant nullSink (blankImage 120 136)).2 (Or.inl (by decide)),
   (dumpChars_size_invariant nullSink (blankImage 8 2056)).2 (Or.inr (by decide))⟩

/-- C7: a grid with exactly 64 sprites (`(width / 16) * (height / 16) = 64`)
makes sprite mode hand exactly 4096 bytes to the sink, in one write; a grid
with any other sprite count fails with the size-mismatch error. -/
theorem dumpSprites_size_invariant (outfile : Writer) (m : PalettedImage) :
    ((m.Dx / 16) * (m.Dy / 16) = 64 →
      dumpSprites outfile m = outfile.Write (dumpSprites.buf m) ∧
      (dumpSprites outfile m).1.calls = outfile.calls ++ [dumpSprites.buf m] ∧
      (dumpSprites.buf m).length = 4096) ∧
    ((m.Dx / 16) * (m.Dy / 16) ≠ 64 →
      dumpSprites outfile m =
        (outfile, some (Error.Errorf "bad size - expected 64 16x16 sprites, got %d"
          ((m.Dx / 16) * (m.Dy / 16))))) := by
  constructor
  · intro h
    refine ⟨dumpSprites_ok outfile m h, ?_, dumpSprites_buf_length m h⟩
    rw [dumpSprites_ok outfile m h]
    rfl
  · intro h
    exact dumpSprites_bad outfile m h

theorem dumpSprites_size_invariant_witness :
    (dumpSprites.buf (blankImage 128 128)).length = 4096 ∧
    dumpSprites nullSink (blankImage 128 112) =
      (nullSink, some (Error.Errorf "bad size - expected 64 16x16 sprites, got %d" 56)) :=
  ⟨((dumpSprites_size_invariant nullSink (blankImage 128 128)).1 (by decide)).2.2,
   (dumpSprites_size_invariant nullSink (blankImage 128 112)).2 (by decide)⟩

/-- C8 (as the code has it): `dumpPalette` fails with the size-mismatch error,
reporting the length, whenever the palette length is not 32, and nothing
reaches the sink. Whenever the palette has 32 entries, each a `color.RGBA`, the
size check passes, exactly 32 bytes are handed to the sink in one `Write`, and
the call returns what that `Write` returns: it succeeds exactly when the sink
accepts the write. -/
theorem dumpPalette_size_invariant (m : PalettedImage) (out : Writer) :
    (m.Palette.length ≠ 32 →
      dumpPalette m out =
        Outcome.returned out
          (some (Error.Errorf "Expected 32 colours, got %d" m.Palette.length))) ∧
    (∀ rs : List RGBA, m.Palette = rs.map Color.rgba → rs.length = 32 →
      dumpPalette m out =
        Outcome.returned (out.Write (rs.map dumpPalette.entry)).1
          (out.result (rs.map dumpPalette.entry)) ∧
      (rs.map dumpPalette.entry).length = 32 ∧
      (out.Write (rs.map dumpPalette.entry)).1.calls =
        out.calls ++ [rs.map dumpPalette.entry]) := by
  constructor
  · exact dumpPalette_bad m out
  · intro rs hp h
    exact ⟨dumpPalette_ok m out rs hp h, by simp [h], rfl⟩

theorem dumpPalette_size_invariant_witness :
    dumpPalette (paletteImage 31) nullSink =
      Outcome.returned nullSink (some (Error.Errorf "Expected 32 colours, got %d" 31)) ∧
    dumpPalette (paletteImage 32) nullSink =
      Outcome.returned
        (nullSink.Write
          ((List.replicate 32 { R := 255, G := 128, B := 64, A := 255 }).map
            dumpPalette.entry)).1
        none :=
  ⟨(dumpPalette_size_invariant (paletteImage 31) nullSink).1 (by decide),
   ((dumpPalette_size_invariant (paletteImage 32) nullSink).2
      (List.replicate 32 { R := 255, G := 128, B := 64, A := 255 }) rfl (by decide)).1⟩

/-- C8, counterexample: a palette of length 32 and a sink that rejects the
write. The call does not succeed: it returns the error of the sink. -/
theorem dumpPalette_32_entries_sink_error :
    (paletteImage 32).Palette.length = 32 ∧
    dumpPalette (paletteImage 32) fullSink =
      Outcome.returned
        (fullSink.Write
          ((List.replicate 32 { R := 255, G := 128, B := 64, A := 255 }).map
            dumpPalette.entry)).1
        (some (Error.Sink "no space left on device")) :=
  ⟨by decide,
   dumpPalette_ok (paletteImage 32) fullSink
     (List.replicate 32 { R := 255, G := 128, B := 64, A := 255 }) rfl (by decide)⟩

/-- C9: in a run of tile mode, respectively of sprite mode, that passed its
size check, every coordinate at which `encode_8x4` reads a pixel lies inside
the grid: `0 <= x < width` and `0 <= y < height`. The run performs 16384
reads in all. -/
theorem reads_in_bounds (m : PalettedImage) :
    ((m.Dx / 8) * (m.Dy / 8) = 256 →
      (dumpChars.reads m).length = 16384 ∧
      ∀ p ∈ dumpChars.reads m,
        0 ≤ p.1 ∧ p.1 < (m.Dx : Int) ∧ 0 ≤ p.2 ∧ p.2 < (m.Dy : Int)) ∧
    ((m.Dx / 16) * (m.Dy / 16) = 64 →
      (dumpSprites.reads m).length = 16384 ∧
      ∀ p ∈ dumpSprites.reads m,
        0 ≤ p.1 ∧ p.1 < (m.Dx : Int) ∧ 0 ≤ p.2 ∧ p.2 < (m.Dy : Int)) :=
  ⟨fun h => ⟨dumpChars_reads_length m h, dumpChars_reads_bounds m h⟩,
   fun h => ⟨dumpSprites_reads_length m h, dumpSprites_reads_bounds m h⟩⟩

theorem reads_in_bounds_witness :
    ((dumpChars.reads (blankImage 129 128)).length = 16384 ∧
      ∀ p ∈ dumpChars.reads (blankImage 129 128),
        0 ≤ p.1 ∧ p.1 < ((blankImage 129 128).Dx : Int) ∧
        0 ≤ p.2 ∧ p.2 < ((blankImage 129 128).Dy : Int)) ∧
    ((dumpSprites.reads (blankImage 128 128)).length = 16384 ∧
      ∀ p ∈ dumpSprites.reads (blankImage 128 128),
        0 ≤ p.1 ∧ p.1 < ((blankImage 128 128).Dx : Int) ∧
        0 ≤ p.2 ∧ p.2 < ((blankImage 128 128).Dy : Int)) :=
  ⟨(reads_in_bounds (blankImage 129 128)).1 (by decide),
   (reads_in_bounds (blankImage 128 128)).2 (by decide)⟩

/-- C10 (as the code has it): take a grid accepted by tile mode whose pixels
all have index 0 except one pixel `(px, py)` of index `v` in `{1, 2, 3}`, that
pixel lying inside the tiled area (`px < 8 * (width / 8)` and
`py < 8 * (height / 8)`, which holds for every pixel when width and height are
multiples of 8). Then the 4096-byte output has exactly one non-zero byte. It
is in the block of tile `(px / 8, py / 8)`, in the lower band (bytes 0-7 of the
block) if `py % 8 >= 4` and in the upper band (bytes 8-15) otherwise, at column
byte `7 - px % 8`. With `row = 3 - py % 4`, its bit `row` is bit 0 of `v`, its
bit `4 + row` is bit 1 of `v`, and its other bits are clear. -/
theorem dumpChars_single_pixel (outfile : Writer) (m : PalettedImage) (px py : Nat)
    (v : uint8)
    (h : (m.Dx / 8) * (m.Dy / 8) = 256)
    (hpx : px < 8 * (m.Dx / 8)) (hpy : py < 8 * (m.Dy / 8))
    (hv : v.val = 1 ∨ v.val = 2 ∨ v.val = 3)
    (hpix : m.ColorIndexAt (px : Int) (py : Int) = v)
    (hz : ∀ x y : Int, 0 ≤ x → x < (m.Dx : Int) → 0 ≤ y → y < (m.Dy : Int) →
      ¬ (x = (px : Int) ∧ y = (py : Int)) → m.ColorIndexAt x y = 0) :
    dumpChars outfile m = outfile.Write (dumpChars.buf m) ∧
    (dumpChars.buf m).length = 4096 ∧
    16 * ((py / 8) * (m.Dx / 8) + px / 8) + (if 4 ≤ py % 8 then 0 else 8)
          + (7 - px % 8) < 4096 ∧
    (∀ i : Nat, i < 4096 →
      ((dumpChars.buf m).getD i 0 ≠ 0 ↔
        i = 16 * ((py / 8) * (m.Dx / 8) + px / 8) + (if 4 ≤ py % 8 then 0 else 8)
          + (7 - px % 8))) ∧
    ((dumpChars.buf m).getD
        (16 * ((py / 8) * (m.Dx / 8) + px / 8) + (if 4 ≤ py % 8 then 0 else 8)
          + (7 - px % 8)) 0).testBit (3 - py % 4) = v.val.testBit 0 ∧
    ((dumpChars.buf m).getD
        (16 * ((py / 8) * (m.Dx / 8) + px / 8) + (if 4 ≤ py % 8 then 0 else 8)
          + (7 - px % 8)) 0).testBit (4 + (3 - py % 4)) = v.val.testBit 1 ∧
    (∀ j : Nat, j ≠ 3 - py % 4 → j ≠ 4 + (3 - py % 4) →
      ((dumpChars.buf m).getD
        (16 * ((py / 8) * (m.Dx / 8) + px / 8) + (if 4 ≤ py % 8 then 0 else 8)
          + (7 - px % 8)) 0).testBit j = false) := by
  have hit := single_pixel_hit m px py v h hpx hpy hpix hz
  have hbits : v.val.testBit 0 = true ∨ v.val.testBit 1 = true := by
    rcases hv with e | e | e <;> rw [e] <;> decide
  have hne : (dumpChars.buf m).getD
        (16 * ((py / 8) * (m.Dx / 8) + px / 8) + (if 4 ≤ py % 8 then 0 else 8)
          + (7 - px % 8)) 0 ≠ 0 := by
    intro h0
    have h1 := hit (3 - py % 4)
    have h2 := hit (4 + (3 - py % 4))
    rw [h0, Nat.zero_testBit] at h1 h2
    rcases hbits with e | e
    · rw [e] at h1; simp at h1
    · rw [e] at h2; simp at h2
  have hlt : 16 * ((py / 8) * (m.Dx / 8) + px / 8) + (if 4 ≤ py % 8 then 0 else 8)
          + (7 - px % 8) < 4096 := by
    have hcy : py / 8 < m.Dy / 8 := by omega
    have hle : (py / 8 + 1) * (m.Dx / 8) ≤ (m.Dy / 8) * (m.Dx / 8) :=
      Nat.mul_le_mul_right _ hcy
    have hs : (py / 8 + 1) * (m.Dx / 8) = py / 8 * (m.Dx / 8) + m.Dx / 8 := Nat.succ_mul _ _
    have hcomm : (m.Dy / 8) * (m.Dx / 8) = 256 := by rw [Nat.mul_comm]; exact h
    split_ifs <;> omega
  refine ⟨dumpChars_ok outfile m h, dumpChars_buf_length m h, hlt, ?_, ?_, ?_, ?_⟩
  · intro i hi
    constructor
    · intro hi0
      by_contra hidx
      exact hi0 (single_pixel_miss m px py h hz i hi hidx)
    · intro e
      rw [e]
      exact hne
  · rw [hit]; simp
  · rw [hit]; simp
  · intro j h1 h2
    rw [hit]; simp [h1, h2]

/-- C10, the scenario of the spec: a 128 by 128 image whose only non-background
pixel is `(7, 7)`, of index 2, gives the byte `0x10` followed by 4095 zero
bytes. -/
theorem dumpChars_single_pixel_witness :
    ((onePixelImage 128 128 7 7 2).Dx / 8) * ((onePixelImage 128 128 7 7 2).Dy / 8) = 256 ∧
    dumpChars nullSink (onePixelImage 128 128 7 7 2) =
      nullSink.Write (dumpChars.buf (onePixelImage 128 128 7 7 2)) ∧
    (dumpChars.buf (onePixelImage 128 128 7 7 2)).length = 4096 ∧
    (dumpChars.buf (onePixelImage 128 128 7 7 2)).getD 0 0 = 0x10 ∧
    (∀ i : Nat, i < 4096 → i ≠ 0 →
      (dumpChars.buf (onePixelImage 128 128 7 7 2)).getD i 0 = 0) := by
  have w := dumpChars_single_pixel nullSink (onePixelImage 128 128 7 7 2) 7 7 2
    (by decide) (by decide) (by decide) (by decide)
    (onePixelImage_at 128 128 7 7 2)
    (fun x y _ _ _ _ hne => onePixelImage_off 128 128 7 7 2 x y hne)
  obtain ⟨w1, w2, _, w4, w5, w6, w7⟩ := w
  have hidx : 16 * ((7 / 8) * ((onePixelImage 128 128 7 7 2).Dx / 8) + 7 / 8)
      + (if 4 ≤ 7 % 8 then 0 else 8) + (7 - 7 % 8) = 0 := by decide
  have hrow : 3 - 7 % 4 = 0 := by decide
  have b0 : (2 : uint8).val.testBit 0 = false := by decide
  have b1 : (2 : uint8).val.testBit 1 = true := by decide
  rw [hidx] at w4 w5 w6 w7
  rw [hrow] at w5 w6 w7
  rw [b0] at w5
  rw [b1] at w6
  refine ⟨by decide, w1, w2, ?_, ?_⟩
  · apply Nat.eq_of_testBit_eq
    intro j
    have e16 : (0x10 : Nat) = 2 ^ 4 := by norm_num
    rw [e16, Nat.testBit_two_pow]
    by_cases h4 : j = 4
    · rw [h4, decide_eq_true rfl]
      exact w6
    · by_cases h0 : j = 0
      · rw [h0, w5]
        decide
      · rw [w7 j h0 h4, decide_eq_false (Ne.symm h4)]
  · intro i hi hne
    by_contra hb
    exact hne ((w4 i hi).mp hb)

/-- C10, counterexample: the 129 by 128 grid is accepted by tile mode; its
pixel `(128, 0)` lies in the grid but in no tile. With index 1 there and index
0 everywhere else, the output is 4096 zero bytes: no byte is non-zero. -/
theorem dumpChars_single_pixel_outside_tiles :
    ((onePixelImage 129 128 128 0 1).Dx / 8) * ((onePixelImage 129 128 128 0 1).Dy / 8) = 256 ∧
    (128 : Int) < ((onePixelImage 129 128 128 0 1).Dx : Int) ∧
    (0 : Int) < ((onePixelImage 129 128 128 0 1).Dy : Int) ∧
    (onePixelImage 129 128 128 0 1).ColorIndexAt 128 0 = 1 ∧
    dumpChars nullSink (onePixelImage 129 128 128 0 1) =
      nullSink.Write (List.replicate 4096 0) := by
  have h : ((onePixelImage 129 128 128 0 1).Dx / 8) *
      ((onePixelImage 129 128 128 0 1).Dy / 8) = 256 := by decide
  refine ⟨h, by decide, by decide, onePixelImage_at 129 128 128 0 1, ?_⟩
  rw [dumpChars_ok nullSink _ h, dumpChars_buf_zero _ h]
  intro x y hx0 hx1 hy0 hy1
  apply onePixelImage_off
  have e : (onePixelImage 129 128 128 0 1).Dx = 129 := rfl
  rw [e] at hx1
  omega

/-- C12: for every reference coordinate, if every pixel that `encode_8x4`
samples (columns `x-7 .. x`, rows `y-3 .. y`) has index 0 the result is 8 zero
bytes, and if every sampled pixel has index 3 every one of the 8 bytes is
`0xFF`. -/
theorem encode_8x4_uniform (m : PalettedImage) (x y : Int) :
    ((∀ (col : Fin 8) (row : Fin 4),
        m.ColorIndexAt (x - (col.val : Int)) (y - (row.val : Int)) = 0) →
      encode_8x4 m x y = [0, 0, 0, 0, 0, 0, 0, 0]) ∧
    ((∀ (col : Fin 8) (row : Fin 4),
        m.ColorIndexAt (x - (col.val : Int)) (y - (row.val : Int)) = 3) →
      encode_8x4 m x y = [0xFF, 0xFF, 0xFF, 0xFF, 0xFF, 0xFF, 0xFF, 0xFF]) := by
  constructor
  · intro h
    exact encode_8x4_const m x y 0 (fun col hcol =>
      column_zero m x y col (fun row hrow => h ⟨col, hcol⟩ ⟨row, hrow⟩))
  · intro h
    exact encode_8x4_const m x y 0xFF (fun col hcol =>
      column_ff m x y col (fun row hrow => h ⟨col, hcol⟩ ⟨row, hrow⟩))

theorem encode_8x4_uniform_witness :
    encode_8x4 (filledImage 128 128 0) 7 3 = [0, 0, 0, 0, 0, 0, 0, 0] ∧
    encode_8x4 (filledImage 128 128 3) 7 3 =
      [0xFF, 0xFF, 0xFF, 0xFF, 0xFF, 0xFF, 0xFF, 0xFF] :=
  ⟨(encode_8x4_uniform (filledImage 128 128 0) 7 3).1 (fun _ _ => rfl),
   (encode_8x4_uniform (filledImage 128 128 3) 7 3).2 (fun _ _ => rfl)⟩

/-- C15 (as the code has it): sprite mode accepts a grid exactly when the
sprite count `(width / 16) * (height / 16)`, with the integer divisions
discarding any remainder, is 64; it then hands its buffer to the sink. For
every other grid it fails with the size-mismatch error, which reports that
count, and leaves the sink untouched. Width and height need not be multiples
of 16. -/
theorem dumpSprites_size_check (outfile : Writer) (m : PalettedImage) :
    ((m.Dx / 16) * (m.Dy / 16) = 64 →
      dumpSprites outfile m = outfile.Write (dumpSprites.buf m)) ∧
    ((m.Dx / 16) * (m.Dy / 16) ≠ 64 →
      dumpSprites outfile m =
        (outfile, some (Error.Errorf "bad size - expected 64 16x16 sprites, got %d"
          ((m.Dx / 16) * (m.Dy / 16))))) :=
  ⟨dumpSprites_ok outfile m, dumpSprites_bad outfile m⟩

theorem dumpSprites_size_check_witness :
    dumpSprites nullSink (blankImage 128 128) =
      nullSink.Write (dumpSprites.buf (blankImage 128 128)) ∧
    dumpSprites nullSink (blankImage 112 144) =
      (nullSink, some (Error.Errorf "bad size - expected 64 16x16 sprites, got %d" 63)) :=
  ⟨(dumpSprites_size_check nullSink (blankImage 128 128)).1 (by decide),
   (dumpSprites_size_check nullSink (blankImage 112 144)).2 (by decide)⟩

/-- C15, counterexample: a 129 by 128 grid, whose width is not a multiple of
16, is accepted by sprite mode: no error is returned and one buffer of 4096
bytes reaches the sink. -/
theorem dumpSprites_accepts_129x128 :
    ¬ (16 ∣ (blankImage 129 128).Dx) ∧
    (dumpSprites nullSink (blankImage 129 128)).2 = none ∧
    (dumpSprites nullSink (blankImage 129 128)).1.calls =
      [dumpSprites.buf (blankImage 129 128)] ∧
    (dumpSprites.buf (blankImage 129 128)).length = 4096 := by
  have h : ((blankImage 129 128).Dx / 16) * ((blankImage 129 128).Dy / 16) = 64 := by decide
  rw [dumpSprites_ok nullSink (blankImage 129 128) h]
  exact ⟨by decide, rfl, rfl, dumpSprites_buf_length (blankImage 129 128) h⟩

/-- C20, the code at a palette it can receive: for the 32-entry palette of a
PNG with a 32-byte tRNS chunk, whose entries are `color.NRGBA`, the size check
of `dumpPalette` passes and the call panics at the type assertion
(main.go:84). The result is not handed to the sink: there is no `Write`, and no
error of the sink is returned. -/
theorem dumpPalette_panic_skips_write :
    translucentPaletteImage.Palette.length = 32 ∧
    dumpPalette translucentPaletteImage fullSink = Outcome.panicked fullSink :=
  ⟨by decide,
   dumpPalette_panics translucentPaletteImage fullSink 0
     { R := 255, G := 128, B := 64, A := 128 } (by decide) (by decide) rfl⟩

/-- C13: for every colour `(R, G, B)` with encoded byte `b`: `b & 0xC0` is
`B & 0xC0` (bits 7-6 are the top 2 bits of Blue), `(b & 0x38) << 2` is
`G & 0xE0` (bits 5-3 are the top 3 bits of Green), `(b & 0x07) << 5` is
`R & 0xE0` (bits 2-0 are the top 3 bits of Red), and encoding the colour
re-derived from `b` by this masking gives `b` again. -/
theorem palette_round_trip (c : RGBA) :
    (dumpPalette.entry c &&& 0xC0 = c.B.val &&& 0xC0) ∧
    ((dumpPalette.entry c &&& 0x38) <<< 2 = c.G.val &&& 0xE0) ∧
    ((dumpPalette.entry c &&& 0x07) <<< 5 = c.R.val &&& 0xE0) ∧
    dumpPalette.entry (rederiveColour (dumpPalette.entry c)) = dumpPalette.entry c := by
  have h := entry_fields c
  exact ⟨h.1, h.2.1, h.2.2.1, entry_rederive ⟨dumpPalette.entry c, h.2.2.2⟩⟩

/-- C16 (as the code has it): the palette byte retains 8 bits of the 24-bit
colour, the top 3 of Red, the top 3 of Green and the top 2 of Blue. It is a
function of these 8 bits only, it is below 256, and every one of the
`2^8 = 256` byte values is the encoding of some colour. -/
theorem palette_quantization :
    (∀ c d : RGBA, c.R.val &&& 0xe0 = d.R.val &&& 0xe0 → c.G.val &&& 0xe0 = d.G.val &&& 0xe0 →
      c.B.val &&& 0xc0 = d.B.val &&& 0xc0 → dumpPalette.entry c = dumpPalette.entry d) ∧
    (∀ c : RGBA, dumpPalette.entry c < 256) ∧
    (∀ b : Nat, b < 256 → ∃ c : RGBA, dumpPalette.entry c = b) := by
  refine ⟨?_, fun c => (entry_fields c).2.2.2, ?_⟩
  · intro c d hr hg hb
    unfold dumpPalette.entry
    rw [hr, hg, hb]
  · intro b hb
    exact ⟨rederiveColour b, entry_rederive ⟨b, hb⟩⟩

theorem palette_quantization_witness :
    dumpPalette.entry { R := 255, G := 128, B := 64, A := 255 } =
      dumpPalette.entry { R := 224, G := 159, B := 127, A := 0 } ∧
    (∃ c : RGBA, dumpPalette.entry c = 200) :=
  ⟨palette_quantization.1 _ _ (by decide) (by decide) (by decide),
   palette_quantization.2.2 200 (by decide)⟩

/-- C16, counterexample: the 256 colours re-derived from the byte values
`0 .. 255` are encoded to 256 distinct bytes, more than `2^6 = 64`. -/
theorem palette_256_distinct_bytes :
    (Finset.image (fun b => dumpPalette.entry (rederiveColour b)) (Finset.range 256)).card
      = 256 := by
  rw [Finset.card_image_of_injOn, Finset.card_range]
  intro a ha b hb hab
  have ha' : a < 256 := Finset.mem_range.mp ha
  have hb' : b < 256 := Finset.mem_range.mp hb
  have ea := entry_rederive ⟨a, ha'⟩
  have eb := entry_rederive ⟨b, hb'⟩
  simp only [] at hab ea eb
  rw [ea, eb] at hab
  exact hab

/-- C14: only the low 2 bits of a colour index are used. Take two grids of the
same size. A call of `encode_8x4` gives the same 8 bytes for both whenever the
sampled pixels agree modulo 4, hence for every reference coordinate when the
grids agree modulo 4 at every coordinate. When the grids agree modulo 4 at
every coordinate of the grid, tile mode and sprite mode behave identically on
both: same bytes written, same result. -/
theorem low_two_bits_only (outfile : Writer) (m1 m2 : PalettedImage)
    (hdx : m1.Dx = m2.Dx) (hdy : m1.Dy = m2.Dy) :
    (∀ x y : Int,
      (∀ (col : Fin 8) (row : Fin 4),
        (m1.ColorIndexAt (x - (col.val : Int)) (y - (row.val : Int))).val &&& 3 =
          (m2.ColorIndexAt (x - (col.val : Int)) (y - (row.val : Int))).val &&& 3) →
      encode_8x4 m1 x y = encode_8x4 m2 x y) ∧
    ((∀ x y : Int, (m1.ColorIndexAt x y).val &&& 3 = (m2.ColorIndexAt x y).val &&& 3) →
      ∀ x y : Int, encode_8x4 m1 x y = encode_8x4 m2 x y) ∧
    ((∀ x y : Int, 0 ≤ x → x < (m1.Dx : Int) → 0 ≤ y → y < (m1.Dy : Int) →
        (m1.ColorIndexAt x y).val &&& 3 = (m2.ColorIndexAt x y).val &&& 3) →
      dumpChars outfile m1 = dumpChars outfile m2 ∧
      dumpSprites outfile m1 = dumpSprites outfile m2) := by
  refine ⟨?_, ?_, ?_⟩
  · intro x y h
    exact encode_8x4_congr_mod4 m1 m2 x y
      (fun col row hcol hrow => h ⟨col, hcol⟩ ⟨row, hrow⟩)
  · intro h x y
    exact encode_8x4_congr_mod4 m1 m2 x y (fun col row _ _ => h _ _)
  · intro h
    exact ⟨dumpChars_congr_grid outfile m1 m2 hdx hdy h,
      dumpSprites_congr_grid outfile m1 m2 hdx hdy h⟩

theorem low_two_bits_only_witness :
    encode_8x4 (filledImage 128 128 1) 7 3 = encode_8x4 (filledImage 128 128 5) 7 3 ∧
    dumpChars nullSink (filledImage 128 128 1) = dumpChars nullSink (filledImage 128 128 5) ∧
    dumpSprites nullSink (filledImage 128 128 1) =
      dumpSprites nullSink (filledImage 128 128 5) :=
  ⟨(low_two_bits_only nullSink (filledImage 128 128 1) (filledImage 128 128 5) rfl rfl).2.1
      (fun _ _ => index_1_5_agree) 7 3,
   (low_two_bits_only nullSink (filledImage 128 128 1) (filledImage 128 128 5) rfl rfl).2.2
      (fun _ _ _ _ _ _ => index_1_5_agree)⟩

/-- C17: once the size check has passed, the extra loop guard never fires. For
a grid with `(width/8) * (height/8) = 256` the tiles that `dumpChars` visits
are those of the two plain counting loops without the guard `n_chars < 256`:
all `cw * ch` tiles, in raster order; the buffer is the concatenation of the
blocks of the visited tiles and equals the buffer of the loops without the
guard. Likewise for `dumpSprites` and the guard `n_chars < 64` when
`(width/16) * (height/16) = 64`. -/
theorem traversal_cap_redundant (m : PalettedImage) :
    ((m.Dx / 8) * (m.Dy / 8) = 256 →
      dumpChars.visits m = visitsNoCap (m.Dx / 8) (m.Dy / 8) ∧
      dumpChars.visits m =
        (List.range ((m.Dx / 8) * (m.Dy / 8))).map (fun k => (k % (m.Dx / 8), k / (m.Dx / 8))) ∧
      dumpChars.buf m = (dumpChars.visits m).flatMap (fun t => tileBlock m t.1 t.2) ∧
      dumpChars.buf m = dumpChars.bufNoCap m) ∧
    ((m.Dx / 16) * (m.Dy / 16) = 64 →
      dumpSprites.visits m = visitsNoCap (m.Dx / 16) (m.Dy / 16) ∧
      dumpSprites.visits m =
        (List.range ((m.Dx / 16) * (m.Dy / 16))).map
          (fun k => (k % (m.Dx / 16), k / (m.Dx / 16))) ∧
      dumpSprites.buf m =
        (dumpSprites.visits m).flatMap (fun t => spriteBlock m (t.1 * 16) (t.2 * 16)) ∧
      dumpSprites.buf m = dumpSprites.bufNoCap m) := by
  constructor
  · intro h
    have hpos := pos_of_mul_eq h (by norm_num)
    have hv : dumpChars.visits m = (List.range' 0 (m.Dy / 8)).flatMap (fun r =>
        (List.range' 0 (m.Dx / 8)).flatMap (fun c => [(c, r)])) :=
      visits_rows 256 (m.Dx / 8) (m.Dy / 8) h (by norm_num)
    refine ⟨?_, ?_, ?_, ?_⟩
    · rw [hv, visitsNoCap_eq]
    · rw [hv, rows_raster _ _ hpos.1]
    · rw [hv, rows_flatMap, dumpChars_buf_rows m h]
    · rw [dumpChars_buf_rows m h, dumpChars_bufNoCap_eq]
  · intro h
    have hpos := pos_of_mul_eq h (by norm_num)
    have hv : dumpSprites.visits m = (List.range' 0 (m.Dy / 16)).flatMap (fun r =>
        (List.range' 0 (m.Dx / 16)).flatMap (fun c => [(c, r)])) :=
      visits_rows 64 (m.Dx / 16) (m.Dy / 16) h (by norm_num)
    refine ⟨?_, ?_, ?_, ?_⟩
    · rw [hv, visitsNoCap_eq]
    · rw [hv, rows_raster _ _ hpos.1]
    · rw [hv, rows_flatMap, dumpSprites_buf_rows m h]
    · rw [dumpSprites_buf_rows m h, dumpSprites_bufNoCap_eq]

theorem traversal_cap_redundant_witness :
    (dumpChars.visits (blankImage 128 128) = visitsNoCap 16 16 ∧
      dumpChars.buf (blankImage 128 128) = dumpChars.bufNoCap (blankImage 128 128)) ∧
    (dumpSprites.visits (blankImage 128 128) = visitsNoCap 8 8 ∧
      dumpSprites.buf (blankImage 128 128) = dumpSprites.bufNoCap (blankImage 128 128)) :=
  ⟨⟨((traversal_cap_redundant (blankImage 128 128)).1 (by decide)).1,
    ((traversal_cap_redundant (blankImage 128 128)).1 (by decide)).2.2.2⟩,
   ⟨((traversal_cap_redundant (blankImage 128 128)).2 (by decide)).1,
    ((traversal_cap_redundant (blankImage 128 128)).2 (by decide)).2.2.2⟩⟩

/-- C18: tile mode is lossless on 2-bit images. For a grid whose width and
height are multiples of 8 and which has 256 tiles: `decodePixel` recovers
`index & 3` of every pixel from the output; the conversion performs exactly
`width * height` pixel reads and reads every pixel of the grid exactly once;
and if `dumpChars` writes the same bytes for a second grid of the same
dimensions, the two grids agree modulo 4 at every pixel. "Exactly once" is:
the read log has no repeated coordinate and contains every pixel. -/
theorem tile_mode_lossless (outfile : Writer) (m1 m2 : PalettedImage)
    (hdx : m1.Dx = m2.Dx) (hdy : m1.Dy = m2.Dy)
    (h8x : 8 ∣ m1.Dx) (h8y : 8 ∣ m1.Dy) (h : (m1.Dx / 8) * (m1.Dy / 8) = 256) :
    (∀ x y : Nat, x < m1.Dx → y < m1.Dy →
      decodePixel (dumpChars.buf m1) (m1.Dx / 8) x y =
        (m1.ColorIndexAt (x : Int) (y : Int)).val &&& 3) ∧
    (dumpChars.reads m1).length = m1.Dx * m1.Dy ∧
    (dumpChars.reads m1).Nodup ∧
    (∀ x y : Nat, x < m1.Dx → y < m1.Dy → ((x : Int), (y : Int)) ∈ dumpChars.reads m1) ∧
    ((dumpChars outfile m1).1.calls = (dumpChars outfile m2).1.calls →
      ∀ x y : Nat, x < m1.Dx → y < m1.Dy →
        (m1.ColorIndexAt (x : Int) (y : Int)).val &&& 3 =
          (m2.ColorIndexAt (x : Int) (y : Int)).val &&& 3) := by
  have ex : 8 * (m1.Dx / 8) = m1.Dx := Nat.mul_div_cancel' h8x
  have ey : 8 * (m1.Dy / 8) = m1.Dy := Nat.mul_div_cancel' h8y
  have h2 : (m2.Dx / 8) * (m2.Dy / 8) = 256 := by rw [← hdx, ← hdy]; exact h
  refine ⟨?_, ?_, dumpChars_reads_nodup m1 h, ?_, ?_⟩
  · intro x y hx hy
    exact decodePixel_correct m1 x y h (by omega) (by omega)
  · rw [dumpChars_reads_length m1 h]
    have e : 8 * (m1.Dx / 8) * (8 * (m1.Dy / 8)) = 64 * ((m1.Dx / 8) * (m1.Dy / 8)) := by ring
    rw [ex, ey, h] at e
    exact e.symm
  · intro x y hx hy
    exact mem_dumpChars_reads m1 h x y (by omega) (by omega)
  · intro hcalls x y hx hy
    rw [dumpChars_ok outfile m1 h, dumpChars_ok outfile m2 h2] at hcalls
    have hb := write_calls_inj outfile _ _ hcalls
    rw [← decodePixel_correct m1 x y h (by omega) (by omega),
      ← decodePixel_correct m2 x y h2 (by omega) (by omega), hb, hdx]

theorem tile_mode_lossless_witness :
    decodePixel (dumpChars.buf (onePixelImage 128 128 7 7 2)) 16 7 7 = 2 ∧
    (((7 : Nat) : Int), ((7 : Nat) : Int)) ∈ dumpChars.reads (onePixelImage 128 128 7 7 2) ∧
    ((onePixelImage 128 128 7 7 2).ColorIndexAt 9 5).val &&& 3 =
      ((onePixelImage 128 128 7 7 6).ColorIndexAt 9 5).val &&& 3 :=
  ⟨(tile_mode_lossless nullSink (onePixelImage 128 128 7 7 2) (onePixelImage 128 128 7 7 6)
      rfl rfl (by decide) (by decide) (by decide)).1 7 7 (by decide) (by decide),
   (tile_mode_lossless nullSink (onePixelImage 128 128 7 7 2) (onePixelImage 128 128 7 7 6)
      rfl rfl (by decide) (by decide) (by decide)).2.2.2.1 7 7 (by decide) (by decide),
   (tile_mode_lossless nullSink (onePixelImage 128 128 7 7 2) (onePixelImage 128 128 7 7 6)
      rfl rfl (by decide) (by decide) (by decide)).2.2.2.2
      (congrArg (fun r => r.1.calls)
        (dumpChars_congr_grid nullSink (onePixelImage 128 128 7 7 2)
          (onePixelImage 128 128 7 7 6) rfl rfl
          (fun x y _ _ _ _ => by
            by_cases hp : x = ((7 : Nat) : Int) ∧ y = ((7 : Nat) : Int)
            · simp only [onePixelImage, if_pos hp]
              decide
            · simp only [onePixelImage, if_neg hp])))
      9 5 (by decide) (by decide)⟩

/-- C19: sprite mode is a fixed re-ordering of tile mode. For a grid of width
`16 * a` and height `16 * b` with `a * b = 64`: the 8-byte chunk that sprite
mode writes for sprite `(sx, sy)` and reference offset `(dx, dy)` (the `c`-th
of the eight offsets) is `encode_8x4` at `(16*sx + dx, 16*sy + dy)`, and it is
the tile-mode chunk of tile `(2*sx + (1 if dx = 15), 2*sy + (1 if dy >= 8))`,
lower band if `dy` is 7 or 15 and upper band if `dy` is 3 or 11. The 512
chunks of the sprite-mode output are a permutation of the 512 chunks of the
tile-mode output. -/
theorem sprite_mode_reorders_tile_mode (m : PalettedImage) (a b : Nat)
    (hw : m.Dx = 16 * a) (hh : m.Dy = 16 * b) (hab : a * b = 64) :
    (∀ sx sy c : Nat, sx < a → sy < b → c < 8 →
      byteSlice (dumpSprites.buf m) (8 * (8 * (sy * a + sx) + c)) 8 =
        encode_8x4 m ((16 * sx + spriteChunkDx c : Nat) : Int)
          ((16 * sy + spriteChunkDy c : Nat) : Int) ∧
      byteSlice (dumpSprites.buf m) (8 * (8 * (sy * a + sx) + c)) 8 =
        byteSlice (dumpChars.buf m)
          (8 * (2 * ((2 * sy + (if 8 ≤ spriteChunkDy c then 1 else 0)) * (2 * a) +
                  (2 * sx + (if spriteChunkDx c = 15 then 1 else 0))) +
                (if spriteChunkDy c = 7 ∨ spriteChunkDy c = 15 then 0 else 1))) 8) ∧
    List.Perm
      ((List.range 512).map (fun n => byteSlice (dumpSprites.buf m) (8 * n) 8))
      ((List.range 512).map (fun n => byteSlice (dumpChars.buf m) (8 * n) 8)) := by
  have hpos := pos_of_mul_eq hab (by norm_num)
  obtain ⟨e16, _, hs, _⟩ := grid_counts m a b hw hh hab
  constructor
  · intro sx sy c hsx hsy hc
    have h1 : (sy + 1) * a ≤ b * a := Nat.mul_le_mul_right _ hsy
    have h2 : (sy + 1) * a = sy * a + a := Nat.succ_mul _ _
    have h3 : b * a = 64 := by rw [Nat.mul_comm]; exact hab
    have hn : 8 * (sy * a + sx) + c < 512 := by omega
    have e8 : (8 * (sy * a + sx) + c) / 8 = sy * a + sx := by omega
    have e8m : (8 * (sy * a + sx) + c) % 8 = c := by omega
    have e1 : (sy * a + sx) % a = sx := by
      rw [Nat.mul_comm, Nat.mul_add_mod]; exact Nat.mod_eq_of_lt hsx
    have e2 : (sy * a + sx) / a = sy := by
      rw [Nat.mul_comm, Nat.mul_add_div hpos.1, Nat.div_eq_of_lt hsx, Nat.add_zero]
    constructor
    · rw [sprite_chunk m hs _ hn, e16, e8, e8m, e1, e2]
    · rw [chunk_correspondence m a b hw hh hab _ hn]
      unfold tileChunkOf
      simp only [e8, e8m, e1, e2]
  · have hmap : (List.range 512).map (fun n => byteSlice (dumpSprites.buf m) (8 * n) 8) =
        ((List.range 512).map (tileChunkOf a)).map
          (fun n => byteSlice (dumpChars.buf m) (8 * n) 8) := by
      rw [List.map_map]
      apply List.map_congr_left
      intro n hn
      exact chunk_correspondence m a b hw hh hab n (List.mem_range.mp hn)
    rw [hmap]
    exact (tileChunkOf_perm a b hab).map _

theorem sprite_mode_reorders_tile_mode_witness :
    (quadrantImage 0 1 2 3).Dx = 16 * 8 ∧ (quadrantImage 0 1 2 3).Dy = 16 * 8 ∧
    byteSlice (dumpSprites.buf (quadrantImage 0 1 2 3)) 0 8 =
      byteSlice (dumpChars.buf (quadrantImage 0 1 2 3)) 272 8 ∧
    List.Perm
      ((List.range 512).map
        (fun n => byteSlice (dumpSprites.buf (quadrantImage 0 1 2 3)) (8 * n) 8))
      ((List.range 512).map
        (fun n => byteSlice (dumpChars.buf (quadrantImage 0 1 2 3)) (8 * n) 8)) :=
  ⟨rfl, rfl,
   ((sprite_mode_reorders_tile_mode (quadrantImage 0 1 2 3) 8 8 rfl rfl (by decide)).1
      0 0 0 (by decide) (by decide) (by decide)).2,
   (sprite_mode_reorders_tile_mode (quadrantImage 0 1 2 3) 8 8 rfl rfl (by decide)).2⟩

end Png2pac
